import Mathlib

/-
Verification of the Claro interpreter (src/claro.c).

The interpreter is shallowly embedded: each C function is translated to a
Lean definition of the same name.  Machine doubles are modelled by exact
rational numbers — the kernel-computable fraction type `Q` below, whose
operations are identified with Mathlib's ℚ operations by the
certification lemmas `toRat_add` and companions.  The C implementation
stores numeric variable values as their
printf "%g" rendering and re-parses them with atof, which agrees with the
exact rational whenever the rendering is exact — the case for every numeric
value appearing in the theorems below (small integers and simple fractions).
The setjmp/longjmp control transfers of the C code are modelled by an
explicit Outcome value threaded through the dispatcher, following the
placement of the setjmp calls in the source:
  - every execute_line call installs a per-line fault boundary at entry
    (claro.c line 433), so a fault raised while that line is the innermost
    line is absorbed there;
  - execute_function installs a return boundary (line 410) that absorbs
    only return transfers;
  - the TRY branch installs a fault boundary (line 685) around the
    execution of the collected TRY lines.
Console output (stdout and stderr interleaved in program order) is modelled
as a list of message strings; the block source (stdin for multi-line block
collection) is modelled as a list of pending input lines.
-/

namespace Claro

deriving instance DecidableEq for Except

/-- C limit MAX_VARIABLES (claro.c line 24). -/
def MAX_VARIABLES : ℕ := 100

/-- C limit MAX_FUNCTIONS (claro.c line 25). -/
def MAX_FUNCTIONS : ℕ := 100

/-- C limit MAX_CALL_STACK_DEPTH (claro.c line 23). -/
def MAX_CALL_STACK_DEPTH : ℕ := 100

/-- C `isspace` in the default locale. -/
def isspace_c (c : Char) : Bool :=
  c = ' ' || c = '\t' || c = '\n' || c = '\x0b' || c = '\x0c' || c = '\r'

/-- C `isdigit`. -/
def isdigit_c (c : Char) : Bool := '0' ≤ c && c ≤ '9'

/-- C `isalnum` in the default locale (ASCII letters and digits). -/
def isalnum_c (c : Char) : Bool :=
  isdigit_c c || ('a' ≤ c && c ≤ 'z') || ('A' ≤ c && c ≤ 'Z')

/-- C `toupper` applied to every character (ASCII). -/
def toupper_str (s : String) : String := ⟨s.toList.map Char.toUpper⟩

/-- `strncmp(s, p, strlen(p)) == 0`: does `s` start with `p`?
(`String.startsWith` itself is byte-position based and does not evaluate
inside the kernel.) -/
def starts_with (s p : String) : Bool := p.toList.isPrefixOf s.toList

/-- Case-insensitive string comparison, as C `strcasecmp` returning 0. -/
def eq_ci (a b : String) : Bool := toupper_str a = toupper_str b

/-- Leading-whitespace removal (first loop of `trim_whitespace`). -/
def drop_spaces : List Char → List Char
  | [] => []
  | c :: r => if isspace_c c then drop_spaces r else c :: r

/-- `trim_whitespace` (claro.c lines 94-103): strips leading and trailing
whitespace. -/
def trim_whitespace (s : String) : String :=
  ⟨(drop_spaces (drop_spaces s.toList.reverse).reverse)⟩

/-- Trailing-whitespace removal only.  `trim_whitespace` writes a NUL over
the trailing whitespace of the buffer in place, so when the collection
loops later `strdup` the original buffer the stored line has lost its
trailing (but not leading) whitespace. -/
def trim_trailing (s : String) : String := ⟨(drop_spaces s.toList.reverse).reverse⟩

/-- One step of `tokenize` (claro.c lines 106-149): skip whitespace, then
read either a double-quoted run (returned with the "S:" tag prepended,
quotes stripped, an unterminated quote reading to end of line) or a maximal
run of non-whitespace characters.  The fuel argument only serves
termination; each produced token or skipped blank consumes at least one
character, so `length + 1` fuel never runs out. -/
def tokenize_list : ℕ → List Char → List String
  | 0, _ => []
  | _, [] => []
  | n + 1, c :: r =>
    if isspace_c c then tokenize_list n r
    else if c = '"' then
      let tok := r.takeWhile (fun d => d ≠ '"')
      let rest := r.dropWhile (fun d => d ≠ '"')
      let rest2 := match rest with
        | '"' :: r2 => r2
        | other => other
      ("S:" ++ ⟨tok⟩) :: tokenize_list n rest2
    else
      let tok := (c :: r).takeWhile (fun d => ¬ isspace_c d)
      let rest := (c :: r).dropWhile (fun d => ¬ isspace_c d)
      (⟨tok⟩ : String) :: tokenize_list n rest

/-- `tokenize` (claro.c lines 106-149) on a whole line. -/
def tokenize (line : String) : List String :=
  tokenize_list (line.toList.length + 1) line.toList

/-- `join_tokens` (claro.c lines 157-170): joins tokens `[start, stop)`
with single spaces. -/
def join_tokens (toks : List String) (start stop : ℕ) : String :=
  String.intercalate " " ((toks.drop start).take (stop - start))

/-- Fuel-driven Euclidean gcd.  `Nat.gcd` is compiled by well-founded
recursion and therefore does not evaluate inside the kernel; this version
is structurally recursive on its fuel and computes the same function
(theorem `gcd_fuel_eq_gcd` below) whenever the fuel exceeds the first
argument. -/
def gcd_fuel : ℕ → ℕ → ℕ → ℕ
  | 0, _, n => n
  | _ + 1, 0, n => n
  | f + 1, m, n => gcd_fuel f (n % m) m

/-- Kernel-computable `Nat.gcd`. -/
def gcd_k (m n : ℕ) : ℕ := gcd_fuel (m + 1) m n

/-- Exact rational numbers as normalized fractions, standing in for the C
doubles.  Mathlib's ℚ is unusable for a computable model because its
arithmetic normalizes through `Nat.gcd`; `Q` keeps the invariant
"positive denominator, fraction in lowest terms" by construction through
`qnorm`, so structural (derived) equality coincides with value equality
for every value the interpreter produces, and every operation evaluates
by `decide`.  The theorems `toRat_add` .. `toRat_lt` below identify these
operations with the rational-number operations of Mathlib. -/
structure Q where
  num : ℤ
  den : ℕ
deriving DecidableEq, Repr

/-- Normalize a fraction with integer numerator and denominator: move the
sign to the numerator and divide both by their gcd.  A zero denominator
(never produced by the interpreter: the single division site is guarded
by the zero test of `parse_term`) collapses to 0. -/
def qnorm (n d : ℤ) : Q :=
  let n2 := if d < 0 then -n else n
  let d2 := if d < 0 then (-d).toNat else d.toNat
  let g := gcd_k n2.natAbs d2
  if g = 0 then ⟨0, 1⟩ else ⟨n2 / g, d2 / g⟩

instance : OfNat Q n := ⟨⟨(n : ℤ), 1⟩⟩

instance : NatCast Q := ⟨fun n => ⟨(n : ℤ), 1⟩⟩

instance : IntCast Q := ⟨fun z => ⟨z, 1⟩⟩

instance : Neg Q := ⟨fun a => ⟨-a.num, a.den⟩⟩

instance : Add Q :=
  ⟨fun a b => qnorm (a.num * b.den + b.num * a.den) (a.den * b.den)⟩

instance : Sub Q :=
  ⟨fun a b => qnorm (a.num * b.den - b.num * a.den) (a.den * b.den)⟩

instance : Mul Q := ⟨fun a b => qnorm (a.num * b.num) (a.den * b.den)⟩

instance : Div Q := ⟨fun a b => qnorm (a.num * b.den) (a.den * b.num)⟩

instance : LE Q := ⟨fun a b => a.num * (b.den : ℤ) ≤ b.num * (a.den : ℤ)⟩

instance : LT Q := ⟨fun a b => a.num * (b.den : ℤ) < b.num * (a.den : ℤ)⟩

instance (a b : Q) : Decidable (a ≤ b) := Int.decLe _ _

instance (a b : Q) : Decidable (a < b) := Int.decLt _ _

/-- `10 ^ k` as a `Q` value (used by the strtod model for the fractional
scale and the exponent). -/
def qpow10 (k : ℕ) : Q := ⟨((10 : ℕ) ^ k : ℕ), 1⟩

/-- Interpretation into Mathlib's rationals, used by the certification
lemmas for the `Q` operations. -/
def Q.toRat (a : Q) : ℚ := (a.num : ℚ) / (a.den : ℚ)

/-- Display form of a `Q` value, presentation-only. -/
instance : ToString Q :=
  ⟨fun a => if a.den = 1 then toString a.num
    else toString a.num ++ "/" ++ toString a.den⟩

/-- `VarType` (claro.c line 29).  The `TYPE_INT` tag is declared but never
produced by any operation. -/
inductive VarType where
  | int
  | float
  | str
deriving DecidableEq, Repr

/-- A stored variable value.  The C code keeps a single `char value[...]`
buffer; numeric values are stored as their "%g" rendering.  We keep the
rational exactly and remember whether the stored text originated from a
numeric rendering (`num`) or was stored verbatim (`str`). -/
inductive Val where
  | num (q : Q)
  | str (s : String)
deriving DecidableEq, Repr

/-- `Variable` (claro.c lines 31-35). -/
structure Variable where
  name : String
  type : VarType
  value : Val
deriving DecidableEq, Repr

/-- `FunctionDef` (claro.c lines 38-44); `param_count`/`code_line_count`
are the list lengths. -/
structure FunctionDef where
  name : String
  params : List String
  code_lines : List String
deriving DecidableEq, Repr

/-- `InterpreterContext` (claro.c lines 48-65).  `input` models the lines
pending on stdin (the Block Source); `output` models the interleaved
stdout/stderr text, one message per entry.  The decorative fields
code_lines/current_line (file driver) and the jmp_bufs (modelled by the
Outcome discipline) are not part of the state. -/
structure InterpreterContext where
  vars : List Variable
  functions : List FunctionDef
  callStack : List String
  inFunction : Bool
  functionReturnValue : Q
  debugMode : Bool
  highContrastMode : Bool
  audioMode : Bool
  input : List String
  output : List String
deriving DecidableEq, Repr

/-- `init_context` (claro.c lines 956-967).  Note the C function does NOT
initialise `function_return_value`; the parameter `r0` stands for the
indeterminate initial contents of that field. -/
def init_context (r0 : Q) (input : List String) : InterpreterContext :=
  { vars := [], functions := [], callStack := [], inFunction := false,
    functionReturnValue := r0, debugMode := false, highContrastMode := false,
    audioMode := false, input := input, output := [] }

/-- In-place update of the first store entry with the given name (the
first loop of `set_variable`, claro.c lines 322-328). -/
def update_first : List Variable → String → Val → VarType → List Variable
  | [], _, _, _ => []
  | vr :: rest, n, v, t =>
    if vr.name = n then { vr with value := v, type := t } :: rest
    else vr :: update_first rest n v t

/-- `set_variable` (claro.c lines 321-337): update in place if the name is
present, else append if below MAX_VARIABLES, else report the capacity
fault and leave the store unchanged. -/
def set_variable (ctx : InterpreterContext) (name : String) (v : Val)
    (t : VarType) : InterpreterContext :=
  if ctx.vars.any (fun vr => vr.name = name) then
    { ctx with vars := update_first ctx.vars name v t }
  else if ctx.vars.length < MAX_VARIABLES then
    { ctx with vars := ctx.vars ++ [⟨name, t, v⟩] }
  else
    { ctx with output := ctx.output ++ ["Maximum variable limit reached"] }

/-- `get_variable` (claro.c lines 339-345): first match by exact name. -/
def get_variable (ctx : InterpreterContext) (name : String) : Option Val :=
  (ctx.vars.find? (fun vr => vr.name = name)).map Variable.value

/-- The value of a digit character. -/
def digit_val (c : Char) : ℕ := c.toNat - '0'.toNat

/-- Fold a digit run into a natural number. -/
def digits_to_nat (ds : List Char) : ℕ :=
  ds.foldl (fun acc c => 10 * acc + digit_val c) 0

/-- Split a leading digit run off a character list. -/
def take_digits (s : List Char) : List Char × List Char :=
  (s.takeWhile isdigit_c, s.dropWhile isdigit_c)

/-- The C `strtod` number syntax as used by `parse_factor`: an integer
part, an optional fractional part, and an optional decimal exponent; if no
digit is present nothing is consumed and the value is 0 (strtod leaves
`endptr` at the start).  The hexadecimal, infinity and NaN forms of strtod
are not modelled: the language grammar only produces decimal literals.
Returns the exact value and the unconsumed rest. -/
def strtod_body (s : List Char) : Q × List Char :=
  let (ip, r1) := take_digits s
  let (fp, r2) :=
    match r1 with
    | '.' :: rt => (rt.takeWhile isdigit_c, rt.dropWhile isdigit_c)
    | other => ([], other)
  if ip = [] ∧ fp = [] then (0, s)
  else
    let mantissa : Q := (digits_to_nat ip : Q) +
      (digits_to_nat fp : Q) / qpow10 fp.length
    let (expo, r3) :=
      match r2 with
      | 'e' :: '+' :: rt =>
          let (ed, rt2) := take_digits rt
          if ed = [] then ((0 : ℤ), r2) else ((digits_to_nat ed : ℤ), rt2)
      | 'e' :: '-' :: rt =>
          let (ed, rt2) := take_digits rt
          if ed = [] then ((0 : ℤ), r2) else (-(digits_to_nat ed : ℤ), rt2)
      | 'e' :: rt =>
          let (ed, rt2) := take_digits rt
          if ed = [] then ((0 : ℤ), r2) else ((digits_to_nat ed : ℤ), rt2)
      | 'E' :: '+' :: rt =>
          let (ed, rt2) := take_digits rt
          if ed = [] then ((0 : ℤ), r2) else ((digits_to_nat ed : ℤ), rt2)
      | 'E' :: '-' :: rt =>
          let (ed, rt2) := take_digits rt
          if ed = [] then ((0 : ℤ), r2) else (-(digits_to_nat ed : ℤ), rt2)
      | 'E' :: rt =>
          let (ed, rt2) := take_digits rt
          if ed = [] then ((0 : ℤ), r2) else ((digits_to_nat ed : ℤ), rt2)
      | other => ((0 : ℤ), other)
    ((if expo < 0 then mantissa / qpow10 (-expo).toNat
      else mantissa * qpow10 expo.toNat), r3)

/-- C `atof`: leading whitespace, optional sign, then the strtod body;
non-numeric text yields 0. -/
def atof (s : String) : Q :=
  match drop_spaces s.toList with
  | '-' :: r => -(strtod_body r).1
  | '+' :: r => (strtod_body r).1
  | r => (strtod_body r).1

/-- C `atoi`: leading whitespace, optional sign, leading digit run;
non-numeric text yields 0. -/
def atoi (s : String) : ℤ :=
  match drop_spaces s.toList with
  | '-' :: r => -(digits_to_nat (r.takeWhile isdigit_c) : ℤ)
  | '+' :: r => (digits_to_nat (r.takeWhile isdigit_c) : ℤ)
  | r => (digits_to_nat (r.takeWhile isdigit_c) : ℤ)

/-- The text stored in the C `value` buffer: strings verbatim, numbers via
their "%g" rendering.  The rendering function is presentation-only here
(no theorem below depends on the text of a non-integer number); for the
integral values the theorems use it agrees with printf "%g". -/
def gfmt (q : Q) : String :=
  if q.den = 1 then toString q.num else toString q

/-- The stored text of a value (what C would find in `variables[i].value`). -/
def val_text (v : Val) : String :=
  match v with
  | .num q => gfmt q
  | .str s => s

/-- Reading a stored value back as a double, as `atof(get_variable(...))`
does: a numeric store entry round-trips through its "%g" rendering, which
is exact for the values used in the theorems below, so the rational is
returned directly; verbatim text goes through `atof`. -/
def atof_val (v : Val) : Q :=
  match v with
  | .num q => q
  | .str s => atof s

/-- `strncasecmp(s, w, w.length) == 0`. -/
def starts_with_ci : List Char → List Char → Bool
  | _, [] => true
  | [], _ :: _ => false
  | c :: r, w :: ws => (c.toUpper = w.toUpper) && starts_with_ci r ws

/-- `!isalnum(s[i])`, where reading just past the end sees the NUL
terminator (not alphanumeric). -/
def not_alnum_at (s : List Char) (i : ℕ) : Bool :=
  match s.drop i with
  | [] => true
  | c :: _ => ¬ isalnum_c c

/-
The recursive-descent evaluator, claro.c lines 174-290.  The C functions
advance a shared char pointer; here each function consumes a `List Char`
and returns the value with the unconsumed rest, or the message passed to
`print_error` just before the `longjmp(ctx->error_buf, 1)` that aborts the
whole evaluation.  The `while` loops folding same-precedence operators
left-to-right become the `_loop` helpers.  The fuel argument only serves
termination; every four nested calls consume at least one character, so
the bound chosen in `evaluate_expression` never runs out.
-/

mutual

/-- `parse_factor` (claro.c lines 174-208): boolean literals, then a
parenthesized comparison (an unmatched `(` raises the EvaluationFault),
then a numeric literal via strtod, otherwise a variable reference that
permissively evaluates to 0.0 when the name (possibly empty) is absent. -/
def parse_factor (fuel : ℕ) (ctx : InterpreterContext) (s0 : List Char) :
    Except String (Q × List Char) :=
  match fuel with
  | 0 => .error "expression fuel exhausted"
  | n + 1 =>
    let s := drop_spaces s0
    if starts_with_ci s ['t', 'r', 'u', 'e'] && not_alnum_at s 4 then
      .ok (1, s.drop 4)
    else if starts_with_ci s ['f', 'a', 'l', 's', 'e'] && not_alnum_at s 5 then
      .ok (0, s.drop 5)
    else
      match s with
      | '(' :: r =>
        match parse_comparison n ctx r with
        | .error e => .error e
        | .ok (v, r1) =>
          match drop_spaces r1 with
          | ')' :: r2 => .ok (v, r2)
          | _ => .error "Oops! It looks like you forgot a closing parenthesis."
      | c :: r =>
        if isdigit_c c || c = '.' then .ok (strtod_body (c :: r))
        else
          let name : String := ⟨(c :: r).takeWhile (fun d => isalnum_c d || d = '_')⟩
          let rest := (c :: r).dropWhile (fun d => isalnum_c d || d = '_')
          .ok ((match get_variable ctx name with
                | some v => atof_val v
                | none => 0), rest)
      | [] =>
        .ok ((match get_variable ctx "" with
              | some v => atof_val v
              | none => 0), [])

/-- `parse_term` (claro.c lines 210-231): a factor followed by the
multiplicative fold. -/
def parse_term (fuel : ℕ) (ctx : InterpreterContext) (s : List Char) :
    Except String (Q × List Char) :=
  match fuel with
  | 0 => .error "expression fuel exhausted"
  | n + 1 =>
    match parse_factor n ctx s with
    | .error e => .error e
    | .ok (v, r) => parse_term_loop n ctx v r

/-- The `while` loop of `parse_term`: fold `*` and `/` left-to-right; a
zero right operand of `/` raises the EvaluationFault. -/
def parse_term_loop (fuel : ℕ) (ctx : InterpreterContext) (acc : Q)
    (s : List Char) : Except String (Q × List Char) :=
  match fuel with
  | 0 => .error "expression fuel exhausted"
  | n + 1 =>
    match s with
    | [] => .ok (acc, [])
    | _ :: _ =>
      match drop_spaces s with
      | '*' :: r =>
        match parse_factor n ctx r with
        | .error e => .error e
        | .ok (rhs, r2) => parse_term_loop n ctx (acc * rhs) r2
      | '/' :: r =>
        match parse_factor n ctx r with
        | .error e => .error e
        | .ok (rhs, r2) =>
          if rhs = 0 then .error "Division by zero is not allowed."
          else parse_term_loop n ctx (acc / rhs) r2
      | s2 => .ok (acc, s2)

/-- `parse_expression` (claro.c lines 233-249): a term followed by the
additive fold. -/
def parse_expression (fuel : ℕ) (ctx : InterpreterContext) (s : List Char) :
    Except String (Q × List Char) :=
  match fuel with
  | 0 => .error "expression fuel exhausted"
  | n + 1 =>
    match parse_term n ctx s with
    | .error e => .error e
    | .ok (v, r) => parse_expression_loop n ctx v r

/-- The `while` loop of `parse_expression`: fold `+` and `-`
left-to-right. -/
def parse_expression_loop (fuel : ℕ) (ctx : InterpreterContext) (acc : Q)
    (s : List Char) : Except String (Q × List Char) :=
  match fuel with
  | 0 => .error "expression fuel exhausted"
  | n + 1 =>
    match s with
    | [] => .ok (acc, [])
    | _ :: _ =>
      match drop_spaces s with
      | '+' :: r =>
        match parse_term n ctx r with
        | .error e => .error e
        | .ok (rhs, r2) => parse_expression_loop n ctx (acc + rhs) r2
      | '-' :: r =>
        match parse_term n ctx r with
        | .error e => .error e
        | .ok (rhs, r2) => parse_expression_loop n ctx (acc - rhs) r2
      | s2 => .ok (acc, s2)

/-- `parse_comparison` (claro.c lines 251-284): an expression followed by
the comparison fold. -/
def parse_comparison (fuel : ℕ) (ctx : InterpreterContext) (s : List Char) :
    Except String (Q × List Char) :=
  match fuel with
  | 0 => .error "expression fuel exhausted"
  | n + 1 =>
    match parse_expression n ctx s with
    | .error e => .error e
    | .ok (v, r) => parse_comparison_loop n ctx v r

/-- The `while` loop of `parse_comparison`: fold the six comparison
operators left-to-right, two-character operators checked first; each
comparison yields 1.0 or 0.0. -/
def parse_comparison_loop (fuel : ℕ) (ctx : InterpreterContext) (acc : Q)
    (s : List Char) : Except String (Q × List Char) :=
  match fuel with
  | 0 => .error "expression fuel exhausted"
  | n + 1 =>
    match s with
    | [] => .ok (acc, [])
    | _ :: _ =>
      match drop_spaces s with
      | '=' :: '=' :: r =>
        match parse_expression n ctx r with
        | .error e => .error e
        | .ok (rhs, r2) =>
          parse_comparison_loop n ctx (if acc = rhs then 1 else 0) r2
      | '!' :: '=' :: r =>
        match parse_expression n ctx r with
        | .error e => .error e
        | .ok (rhs, r2) =>
          parse_comparison_loop n ctx (if acc ≠ rhs then 1 else 0) r2
      | '<' :: '=' :: r =>
        match parse_expression n ctx r with
        | .error e => .error e
        | .ok (rhs, r2) =>
          parse_comparison_loop n ctx (if acc ≤ rhs then 1 else 0) r2
      | '>' :: '=' :: r =>
        match parse_expression n ctx r with
        | .error e => .error e
        | .ok (rhs, r2) =>
          parse_comparison_loop n ctx (if rhs ≤ acc then 1 else 0) r2
      | '<' :: r =>
        match parse_expression n ctx r with
        | .error e => .error e
        | .ok (rhs, r2) =>
          parse_comparison_loop n ctx (if acc < rhs then 1 else 0) r2
      | '>' :: r =>
        match parse_expression n ctx r with
        | .error e => .error e
        | .ok (rhs, r2) =>
          parse_comparison_loop n ctx (if rhs < acc then 1 else 0) r2
      | s2 => .ok (acc, s2)

end

/-- `evaluate_expression` (claro.c lines 286-290): run the comparison
parser on the whole text; unconsumed trailing text is discarded, exactly
as the C function ignores the final pointer position.  The fuel bound is
generous: every four nested parser calls consume at least one character. -/
def evaluate_expression (expr : String) (ctx : InterpreterContext) :
    Except String Q :=
  match parse_comparison (8 * expr.toList.length + 16) ctx expr.toList with
  | .error e => .error e
  | .ok (v, _) => .ok v

/-- Append one console message (one printf or print_error call). -/
def emit (ctx : InterpreterContext) (msg : String) : InterpreterContext :=
  { ctx with output := ctx.output ++ [msg] }

/-- The block-collection loop shared by WHILE/FOR/TRY (claro.c lines
585-595, 638-648, 674-684, 690-698, 705-715): read lines from the block
source until the case-insensitively matched sentinel (or exhaustion, which
ends collection as if the sentinel had been read).  Stored lines have lost
their trailing whitespace because `trim_whitespace` NUL-terminates the
shared buffer in place before the line is duplicated. -/
def collect_block : List String → String → List String × List String
  | [], _ => ([], [])
  | l :: rest, sentinel =>
    if eq_ci (trim_whitespace l) sentinel then ([], rest)
    else
      let (blk, rem) := collect_block rest sentinel
      (trim_trailing l :: blk, rem)

/-- The body-collection loop of `define_function` (claro.c lines 375-391),
which unlike the other collectors matches its ENDFUNCTION sentinel
case-sensitively (strcmp, line 382). -/
def collect_block_cs : List String → String → List String × List String
  | [], _ => ([], [])
  | l :: rest, sentinel =>
    if trim_whitespace l = sentinel then ([], rest)
    else
      let (blk, rem) := collect_block_cs rest sentinel
      (trim_trailing l :: blk, rem)

/-- `define_function` (claro.c lines 348-394).  Although declared and
defined, the C dispatcher never invokes it — `execute_line` has no
FUNCTION branch, so at runtime the registry can only hold functions
installed before dispatch.  Modelled for the registry-capacity behavior:
the capacity check precedes the body read, so on overflow the input is not
consumed and the registry is unchanged. -/
def define_function (ctx : InterpreterContext) (toks : List String) :
    InterpreterContext :=
  if toks.length < 2 then emit ctx "Usage: FUNCTION <name> [params...]"
  else if MAX_FUNCTIONS ≤ ctx.functions.length then
    emit ctx "Maximum function limit reached"
  else
    let name := toks.getD 1 ""
    let params := toks.drop 2
    let c0 := emit ctx
      "Enter function body lines. Type ENDFUNCTION on a line by itself to finish:"
    let blk := collect_block_cs c0.input "ENDFUNCTION"
    emit { c0 with
           functions := c0.functions ++ [⟨name, params, blk.1⟩]
           input := blk.2 }
      ("Function '" ++ name ++ "' defined with " ++ toString params.length ++
       " parameter(s) and " ++ toString blk.1.length ++ " code line(s).")

/-- The scan of the IF branch (claro.c lines 538-551): first THEN, first
ELSE, first ENDIF, stopping at the first ENDIF.  Called on `toks.drop 1`
with starting index 1. -/
def if_scan : List String → ℕ → Option ℕ → Option ℕ →
    Option ℕ × Option ℕ × Option ℕ
  | [], _, th, el => (th, el, none)
  | tk :: rest, i, th, el =>
    let temp := toupper_str tk
    if temp = "THEN" ∧ th = none then if_scan rest (i + 1) (some i) el
    else if temp = "ELSE" ∧ el = none then if_scan rest (i + 1) th (some i)
    else if temp = "ENDIF" then (th, el, some i)
    else if_scan rest (i + 1) th el

/-- The non-local control transfers of the C code, made explicit.  A
`longjmp(ctx->error_buf, 1)` (a fault) becomes `faulted`; a
`longjmp(ctx->function_return_buf, 1)` (a return transfer, with the value
already stored in `functionReturnValue`, exactly as in C) becomes
`returned`; ordinary completion is `completed`. -/
inductive Outcome where
  | completed
  | faulted
  | returned
deriving DecidableEq, Repr

/-- The mutually recursive entry points of the C dispatcher, unified so
the whole interpreter is one structural recursion on fuel:
`line` is `execute_line`, `toks` is the body of `execute_line` after
tokenization (lines 437-859, dispatched on the already-produced token
list), `block` is `execute_block`, `func` is `execute_function`, `rep` is
the REPEAT loop (claro.c lines 530-533), `forloop` is the FOR iteration
loop (lines 652-662) and `whileloop` is the WHILE iteration loop (lines
596-598). -/
inductive Req where
  | line (s : String)
  | toks (ts : List String)
  | block (ls : List String)
  | func (f : FunctionDef) (args : List String)
  | rep (k : ℕ) (cmd : String)
  | forloop (v : String) (endv stepv : Q) (body : List String)
  | whileloop (cond : String) (body : List String)

/-- The entry sequence of `execute_function` (claro.c lines 401-409):
bind each argument over the matching parameter name as a Float-typed
variable (the raw argument text, still carrying the "S:" tag if the caller
passed a quoted literal — claro.c stores the token verbatim), push the
function name if the call stack is not full (silently skipping the push —
and any report — when it is), and raise the active-function flag.  The
watermark `local_scope_start` is the store length of the state passed in
here, before any parameter is bound. -/
def call_prelude (ctx : InterpreterContext) (f : FunctionDef)
    (args : List String) : InterpreterContext :=
  let c1 := (f.params.zip args).foldl
    (fun c pa => set_variable c pa.1 (.str pa.2) .float) ctx
  let c2 := if c1.callStack.length < MAX_CALL_STACK_DEPTH then
      { c1 with callStack := c1.callStack ++ [f.name] }
    else c1
  { c2 with inFunction := true }

/-- The exit sequence of `execute_function` (claro.c lines 417-420), run on
every exit path that reaches line 416: truncate the store to the watermark
`L`, clear the active-function flag, and pop the call stack if nonempty —
note the pop is unconditional even when the push above was skipped because
the stack was full. -/
def call_cleanup (L : ℕ) (c4 : InterpreterContext) : InterpreterContext :=
  { c4 with
    vars := c4.vars.take L
    inFunction := false
    callStack := if 0 < c4.callStack.length then c4.callStack.dropLast
      else c4.callStack }

/-- The VARIABLE/SET branch (claro.c lines 450-468), reached when the
command word matches and at least four tokens are present.  A single
string-literal token is stored verbatim as String-typed; otherwise the
joined expression text is evaluated and stored Float-typed (as its "%g"
rendering in C).  The confirmation printf runs even when `set_variable`
just reported a capacity fault, exactly as in the source. -/
def dispatch_set (ctx : InterpreterContext) (toks : List String) :
    InterpreterContext × Outcome × Q :=
  let t : ℕ → String := fun i => toks.getD i ""
  if t 2 ≠ "=" then
    (emit ctx "Usage: VARIABLE/SET <name> = <expression>", .completed, 0)
  else if starts_with (t 3) "S:" ∧ toks.length = 4 then
    let lit := (t 3).drop 2
    (emit (set_variable ctx (t 1) (.str lit) .str)
       ("Variable '" ++ t 1 ++ "' set to '" ++ lit ++ "'"), .completed, 0)
  else
    match evaluate_expression (join_tokens toks 3 toks.length) ctx with
    | .error e => (emit ctx e, .faulted, 0)
    | .ok v =>
      (emit (set_variable ctx (t 1) (.num v) .float)
         ("Variable '" ++ t 1 ++ "' set to '" ++ gfmt v ++ "'"), .completed, 0)

/-- The PRINT branch (claro.c lines 469-490): `$name` forces a lookup
(with the "[undefined]" marker when absent), a literal token prints its
payload, a bare token prints the variable value if one exists and the
token text itself otherwise; pieces are space-separated on one line. -/
def dispatch_print (ctx : InterpreterContext) (toks : List String) :
    InterpreterContext × Outcome × Q :=
  let pieces := (toks.drop 1).map (fun tk =>
    if starts_with tk "$" then
      match get_variable ctx (tk.drop 1) with
      | some v => val_text v
      | none => "[undefined]"
    else if starts_with tk "S:" then tk.drop 2
    else
      match get_variable ctx tk with
      | some v => val_text v
      | none => tk)
  (emit ctx (pieces.foldl (fun a p => a ++ p ++ " ") ""), .completed, 0)

/-- The GET branch (claro.c lines 491-497): a fault-free report either
way; an unknown name gets the distinct "is not defined" message. -/
def dispatch_get (ctx : InterpreterContext) (toks : List String) :
    InterpreterContext × Outcome × Q :=
  let t : ℕ → String := fun i => toks.getD i ""
  match get_variable ctx (t 1) with
  | some v =>
    (emit ctx ("Variable '" ++ t 1 ++ "' = '" ++ val_text v ++ "'"),
     .completed, 0)
  | none =>
    (emit ctx ("Variable '" ++ t 1 ++ "' is not defined."), .completed, 0)

/-- The DEBUG branch (claro.c lines 498-508). -/
def dispatch_debug (ctx : InterpreterContext) (toks : List String) :
    InterpreterContext × Outcome × Q :=
  let t : ℕ → String := fun i => toks.getD i ""
  if eq_ci (t 1) "ON" then
    (emit { ctx with debugMode := true } "Debug mode enabled.", .completed, 0)
  else if eq_ci (t 1) "OFF" then
    (emit { ctx with debugMode := false } "Debug mode disabled.", .completed, 0)
  else (emit ctx "Usage: DEBUG ON|OFF", .completed, 0)

/-- The INPUT branch (claro.c lines 509-523): prompt, read one line from
the block source, bind it String-typed; exhausted input reports the read
failure. -/
def dispatch_input (ctx : InterpreterContext) (toks : List String) :
    InterpreterContext × Outcome × Q :=
  let t : ℕ → String := fun i => toks.getD i ""
  let prompt := trim_whitespace (join_tokens toks 2 toks.length)
  let c0 := emit ctx (prompt ++ " ")
  match c0.input with
  | l :: rest =>
    let trimmed := trim_whitespace l
    (emit (set_variable { c0 with input := rest } (t 1) (.str trimmed) .str)
       ("Variable '" ++ t 1 ++ "' set to '" ++ trimmed ++ "'"), .completed, 0)
  | [] => (emit c0 "Failed to read input", .completed, 0)

/-- The CONCAT branch (claro.c lines 736-744): concatenates the stored
texts (missing operands contribute nothing) into a String-typed result. -/
def dispatch_concat (ctx : InterpreterContext) (toks : List String) :
    InterpreterContext × Outcome × Q :=
  let t : ℕ → String := fun i => toks.getD i ""
  let v1 := match get_variable ctx (t 2) with
    | some v => val_text v
    | none => ""
  let v2 := match get_variable ctx (t 3) with
    | some v => val_text v
    | none => ""
  (emit (set_variable ctx (t 1) (.str (v1 ++ v2)) .str)
     ("Concatenated value stored in '" ++ t 1 ++ "'."), .completed, 0)

/-- The RETURN branch (claro.c lines 773-783): outside a function it only
reports; inside, the joined expression is evaluated (a fault propagates to
the per-line boundary), the value is stored in the pending return slot and
a return transfer is raised (the `longjmp(ctx->function_return_buf, 1)`). -/
def dispatch_return (ctx : InterpreterContext) (toks : List String) :
    InterpreterContext × Outcome × Q :=
  if ctx.inFunction = false then
    (emit ctx "RETURN can only be used inside a function", .completed, 0)
  else
    match evaluate_expression (join_tokens toks 1 toks.length) ctx with
    | .error e => (emit ctx e, .faulted, 0)
    | .ok v => ({ ctx with functionReturnValue := v }, .returned, 0)

/-- The STACK branch (claro.c lines 784-789). -/
def dispatch_stack (ctx : InterpreterContext) :
    InterpreterContext × Outcome × Q :=
  ({ ctx with output := ctx.output ++
      (("Call Stack (depth " ++ toString ctx.callStack.length ++ "):")
       :: ctx.callStack.map (fun s2 => "  " ++ s2)) }, .completed, 0)

/-- The TRACE branch (claro.c lines 790-807). -/
def dispatch_trace (ctx : InterpreterContext) :
    InterpreterContext × Outcome × Q :=
  ({ ctx with output := ctx.output ++
      (["---- TRACE ----",
        "Variables (" ++ toString ctx.vars.length ++ "):"] ++
       ctx.vars.map (fun vr => "  " ++ vr.name ++ " = " ++ val_text vr.value) ++
       ["Functions (" ++ toString ctx.functions.length ++ "):"] ++
       ctx.functions.map (fun f => "  " ++ f.name ++ "(" ++
         String.intercalate ", " f.params ++ ") with " ++
         toString f.code_lines.length ++ " lines") ++
       ["---- END TRACE ----"]) }, .completed, 0)

/-- The AUDIO branch (claro.c lines 821-831). -/
def dispatch_audio (ctx : InterpreterContext) (toks : List String) :
    InterpreterContext × Outcome × Q :=
  let t : ℕ → String := fun i => toks.getD i ""
  if eq_ci (t 1) "ON" then
    (emit { ctx with audioMode := true }
       "Audio mode enabled. Errors and important messages will be read aloud.",
     .completed, 0)
  else if eq_ci (t 1) "OFF" then
    (emit { ctx with audioMode := false } "Audio mode disabled.", .completed, 0)
  else (emit ctx "Usage: AUDIO ON|OFF", .completed, 0)

/-- The THEME branch (claro.c lines 832-842). -/
def dispatch_theme (ctx : InterpreterContext) (toks : List String) :
    InterpreterContext × Outcome × Q :=
  let t : ℕ → String := fun i => toks.getD i ""
  if eq_ci (t 1) "HIGH" then
    (emit { ctx with highContrastMode := true } "High contrast mode enabled.",
     .completed, 0)
  else if eq_ci (t 1) "NORMAL" then
    (emit { ctx with highContrastMode := false } "Normal theme enabled.",
     .completed, 0)
  else (emit ctx "Usage: THEME HIGH|NORMAL", .completed, 0)

/-- Result of analysing a single-line IF (claro.c lines 537-568) before
any sub-dispatch: a syntax reject, a condition-evaluation fault, the
re-joined sub-command to dispatch, or nothing to execute. -/
inductive IfSetup where
  | reject
  | fault (msg : String)
  | runCmd (cmd : String)
  | skip

/-- The scan-and-decide part of the IF branch (claro.c lines 537-568):
find the first THEN/ELSE/ENDIF, evaluate the condition span, and pick the
THEN span (condition nonzero) or the ELSE span (present and condition
zero) as the command to re-dispatch. -/
def if_setup (ctx : InterpreterContext) (toks : List String) : IfSetup :=
  match if_scan (toks.drop 1) 1 none none with
  | (some then_idx, else_idx, some endif_idx) =>
    (match evaluate_expression (join_tokens toks 1 then_idx) ctx with
     | .error e => .fault e
     | .ok cond_val =>
       if cond_val ≠ 0 then
         .runCmd (join_tokens toks (then_idx + 1)
           (match else_idx with | none => endif_idx | some ei => ei))
       else
         match else_idx with
         | some ei => .runCmd (join_tokens toks (ei + 1) endif_idx)
         | none => .skip)
  | _ => .reject

/-- Result of parsing a FOR header (claro.c lines 604-633) before the body
is collected: a reported syntax reject, an evaluation fault, or the loop
parameters (start/end/step evaluated once, step defaulting to 1). -/
inductive ForSetup where
  | reject (msg : String)
  | fault (msg : String)
  | go (v : String) (start endv stepv : Q)

/-- The header-parsing part of the FOR branch (claro.c lines 604-633),
keeping the exact check order of the source: token count, `=`, start
expression, `TO`, end expression, the optional STEP clause, and BEGIN at
the resulting index (6 without STEP, 8 with it). -/
def for_setup (ctx : InterpreterContext) (toks : List String) : ForSetup :=
  let t : ℕ → String := fun i => toks.getD i ""
  let count := toks.length
  if count < 7 then
    .reject "Usage: FOR <var> = <start> TO <end> [STEP <step>] BEGIN"
  else if t 2 ≠ "=" then .reject "Expected '=' in FOR loop declaration"
  else
    match evaluate_expression (t 3) ctx with
    | .error e => .fault e
    | .ok start_val =>
      if ¬ eq_ci (t 4) "TO" then .reject "Expected 'TO' in FOR loop declaration"
      else
        match evaluate_expression (t 5) ctx with
        | .error e => .fault e
        | .ok end_val =>
          if eq_ci (t 6) "STEP" ∧ ¬ (7 < count) then
            .reject "Missing step value in FOR loop"
          else if eq_ci (t 6) "STEP" then
            match evaluate_expression (t 7) ctx with
            | .error e => .fault e
            | .ok sv =>
              if ¬ (8 < count) ∨ ¬ eq_ci (t 8) "BEGIN" then
                .reject "Missing BEGIN in FOR loop declaration"
              else .go (t 1) start_val end_val sv
          else if ¬ eq_ci (t 6) "BEGIN" then
            .reject "Missing BEGIN in FOR loop declaration"
          else .go (t 1) start_val end_val 1

/-- The per-line fault boundary (claro.c lines 433-436): the `setjmp` at
the top of `execute_line` turns any fault raised while this line is the
innermost dispatched line into the skip report, and the line completes
normally from its caller's point of view.  Return transfers use the other
jmp_buf and pass through untouched. -/
def absorb_line_fault : InterpreterContext × Outcome × Q →
    InterpreterContext × Outcome × Q
  | (c, .faulted, _) =>
    (emit c "An error occurred; skipping this command", .completed, 0)
  | other => other

/-- The interpreter (claro.c lines 396-429 and 432-860).  Returns the
state, the control outcome and — meaningful only for `func` requests — the
double returned by `execute_function`.  The fuel argument only serves
termination (the language has genuinely non-terminating programs); fuel
exhaustion leaves the state unchanged, and every theorem below either
quantifies over the fuel or supplies enough of it for the concrete program
at hand.

Faithfulness notes, keyed to the source:
  - `line` re-establishes the per-line fault boundary of claro.c line 433
    around its own dispatch, so a `faulted` outcome produced by this
    line's own expression evaluations (or by a loop request it delegates
    to) is absorbed here, printing the skip message of line 434.  Nested
    execute_line calls absorb their own faults first — which is why the
    TRY catch arm below is unreachable.
  - DEBUG/AUDIO/THEME toggle their flags; debug_log output, the fixed
    help/tutorial/cheatsheet text, the espeak side effect of SAY, and the
    per-line "... " prompts are presentation-only and not recorded.
  - IMPORT reads the filesystem, which the model does not have; it is
    modelled as the fopen-failure path (claro.c line 725).  EXIT
    terminates the process; the model records its message and completes.
    No claim exercises IMPORT or EXIT.
  - In `forloop`, C calls `atof(get_variable(...))`; if the loop variable
    were absent it would pass NULL to atof — the model reads 0.  The
    situation does not arise in any theorem (the FOR branch has just set
    the variable).  The loop re-reads the variable from the store before
    every test, but adds the step to the value read at the top of the
    iteration, exactly as lines 653-661 do. -/
def run : ℕ → InterpreterContext → Req →
    InterpreterContext × Outcome × Q
  | 0, ctx, _ => (ctx, .completed, 0)
  | n + 1, ctx, .line line =>
    absorb_line_fault (run n ctx (.toks (tokenize line)))
  | _ + 1, ctx, .block [] => (ctx, .completed, 0)
  | n + 1, ctx, .block (l :: ls) =>
    (match run n ctx (.line l) with
     | (c, .completed, _) => run n c (.block ls)
     | (c, o, _) => (c, o, 0))
  | _ + 1, ctx, .rep 0 _ => (ctx, .completed, 0)
  | n + 1, ctx, .rep (k + 1) cmd =>
    (match run n ctx (.line cmd) with
     | (c, .completed, _) => run n c (.rep k cmd)
     | (c, o, _) => (c, o, 0))
  | n + 1, ctx, .func f args =>
      if args.length ≠ f.params.length then
        (emit ctx ("Error: Function '" ++ f.name ++ "' expects " ++
           toString f.params.length ++ " arguments, got " ++
           toString args.length ++ "."), .completed, 0)
      else
        match run n (call_prelude ctx f args) (.block f.code_lines) with
        | (c4, .faulted, _) => (c4, .faulted, 0)
        | (c4, _, _) =>
          (call_cleanup ctx.vars.length c4, .completed, c4.functionReturnValue)
  | n + 1, ctx, .forloop v endv stepv body =>
    let current := atof_val ((get_variable ctx v).getD (.str ""))
    let cond := if 0 < stepv then current ≤ endv else endv ≤ current
    if cond then
      (match run n ctx (.block body) with
       | (c, .completed, _) =>
         run n (set_variable c v (.num (current + stepv)) .float)
           (.forloop v endv stepv body)
       | (c, o, _) => (c, o, 0))
    else (ctx, .completed, 0)
  | n + 1, ctx, .whileloop cond body =>
    (match evaluate_expression cond ctx with
     | .error e => (emit ctx e, .faulted, 0)
     | .ok v =>
       if v = 0 then (ctx, .completed, 0)
       else
         match run n ctx (.block body) with
         | (c, .completed, _) => run n c (.whileloop cond body)
         | (c, o, _) => (c, o, 0))
  | _ + 1, ctx, .toks [] => (ctx, .completed, 0)
  | n + 1, ctx, .toks (t0 :: ts) =>
    let toks := t0 :: ts
    let command := toupper_str t0
    let t : ℕ → String := fun i => toks.getD i ""
    let count := toks.length
    if (command = "VARIABLE" ∨ command = "SET") ∧ 4 ≤ count then
      dispatch_set ctx toks
    else if command = "PRINT" then
      dispatch_print ctx toks
    else if command = "GET" ∧ 2 ≤ count then
      dispatch_get ctx toks
    else if command = "DEBUG" ∧ 2 ≤ count then
      dispatch_debug ctx toks
    else if command = "INPUT" ∧ 3 ≤ count then
      dispatch_input ctx toks
    else if command = "REPEAT" ∧ 3 ≤ count then
      let cnt := atoi (t 1)
      if cnt ≤ 0 then
        (emit ctx "REPEAT count must be a positive integer", .completed, 0)
      else run n ctx (.rep cnt.toNat (join_tokens toks 2 count))
    else if command = "IF" then
      (match if_setup ctx toks with
       | .reject =>
         (emit ctx
            "IF syntax error. Usage: IF <cond> THEN <cmd> [ELSE <cmd>] ENDIF",
          .completed, 0)
       | .fault m => (emit ctx m, .faulted, 0)
       | .runCmd cmd => run n ctx (.line cmd)
       | .skip => (ctx, .completed, 0))
    else if command = "WHILE" then
      let cond_toks := (toks.drop 1).takeWhile (fun tk => ¬ eq_ci tk "BEGIN")
      if cond_toks.length = count - 1 then
        (emit ctx "WHILE syntax error. Missing BEGIN", .completed, 0)
      else
        let blk := collect_block ctx.input "ENDWHILE"
        let c0 := emit { ctx with input := blk.2 }
          "Enter WHILE loop block lines (type ENDWHILE on a line by itself):"
        run n c0 (.whileloop (cond_toks.foldl (fun a tk => a ++ tk ++ " ") "")
          blk.1)
    else if command = "FOR" then
      (match for_setup ctx toks with
       | .reject m => (emit ctx m, .completed, 0)
       | .fault m => (emit ctx m, .faulted, 0)
       | .go v start_val end_val step_val =>
         let blk := collect_block ctx.input "ENDFOR"
         let c0 := emit { ctx with input := blk.2 }
           "Enter FOR loop block lines (type ENDFOR on a line by itself):"
         run n (set_variable c0 v (.num start_val) .float)
           (.forloop v end_val step_val blk.1))
    else if command = "TRY" then
      let blk := collect_block ctx.input "CATCH"
      let c0 := emit { ctx with input := blk.2 }
        "Enter TRY block lines (type CATCH on a line by itself):"
      (match run n c0 (.block blk.1) with
       | (c, .completed, _) =>
         let c2 := emit c "TRY block executed successfully; skipping CATCH."
         ({ c2 with input := (collect_block c2.input "ENDTRY").2 },
          .completed, 0)
       | (c, .faulted, _) =>
         let c2 := emit c "Error in TRY block; executing CATCH block."
         let cb := collect_block c2.input "ENDTRY"
         run n { c2 with input := cb.2 } (.block cb.1)
       | (c, .returned, q) => (c, .returned, q))
    else if command = "IMPORT" ∧ 2 ≤ count then
      (emit ctx "Could not open import file.", .completed, 0)
    else if command = "CONCAT" ∧ 4 ≤ count then
      dispatch_concat ctx toks
    else if command = "CALL" ∧ 2 ≤ count then
      (match ctx.functions.find? (fun f => f.name = t 1) with
       | none =>
         (emit ctx ("Function '" ++ t 1 ++ "' not defined."), .completed, 0)
       | some f =>
         let res := run n ctx (.func f (toks.drop 2))
         (emit res.1 ("Function '" ++ t 1 ++ "' returned " ++ gfmt res.2.2),
          .completed, 0))
    else if command = "RETURN" ∧ 2 ≤ count then
      dispatch_return ctx toks
    else if command = "STACK" then
      dispatch_stack ctx
    else if command = "TRACE" then
      dispatch_trace ctx
    else if command = "HELP" ∨ command = "CHEATSHEET" ∨ command = "GUIDED" then
      (ctx, .completed, 0)
    else if command = "CUSTOM" then
      (emit ctx
         "Custom display mode activated. Extra spacing will be added to outputs to aid readability.",
       .completed, 0)
    else if command = "AUDIO" ∧ 2 ≤ count then
      dispatch_audio ctx toks
    else if command = "THEME" ∧ 2 ≤ count then
      dispatch_theme ctx toks
    else if command = "SAY" ∧ 2 ≤ count then
      (ctx, .completed, 0)
    else if command = "EXIT" then
      (emit ctx "Exiting interpreter.", .completed, 0)
    else
      (emit ctx "Unknown command", .completed, 0)

/-- `execute_line` (claro.c lines 432-860). -/
def execute_line (fuel : ℕ) (ctx : InterpreterContext) (line : String) :
    InterpreterContext × Outcome × Q :=
  run fuel ctx (.line line)

/-- `execute_block` (claro.c lines 425-429). -/
def execute_block (fuel : ℕ) (ctx : InterpreterContext) (ls : List String) :
    InterpreterContext × Outcome × Q :=
  run fuel ctx (.block ls)

/-- `execute_function` (claro.c lines 396-422), returning the new state
and the function's double result. -/
def execute_function (fuel : ℕ) (ctx : InterpreterContext)
    (f : FunctionDef) (args : List String) : InterpreterContext × Q :=
  match run fuel ctx (.func f args) with
  | (c, _, q) => (c, q)

/-- What any single dispatch step may do to the store and to the call
stack: store entries present before the step keep their positions and
names (their values may be updated in place), the store may only grow past
them or be truncated back to no earlier than its starting length, and both
capacity bounds are preserved. -/
def StoreStep (a b : InterpreterContext) : Prop :=
  a.vars.length ≤ b.vars.length ∧
  (b.vars.map Variable.name).take a.vars.length = a.vars.map Variable.name ∧
  (a.vars.length ≤ MAX_VARIABLES → b.vars.length ≤ MAX_VARIABLES) ∧
  (a.callStack.length ≤ MAX_CALL_STACK_DEPTH →
    b.callStack.length ≤ MAX_CALL_STACK_DEPTH)

/-- Requests whose outcome can be a fault handed to the enclosing
boundary: the raw dispatch of a tokenized line (`toks`, before the
per-line boundary of `line` absorbs the fault) and the WHILE iteration
loop, whose condition is evaluated outside any nested per-line boundary. -/
def can_fault : Req → Prop
  | .whileloop _ _ => True
  | .toks _ => True
  | _ => False

/-- Fixture: a store with the Float global `x = 10` and a registry holding
`f(x)` whose body creates a fresh variable `y`. -/
def shadow_ctx : InterpreterContext :=
  { init_context 0 [] with
    vars := [⟨"x", .float, .num 10⟩]
    functions := [⟨"f", ["x"], ["SET y = 1"]⟩] }

/-- Fixture: `f` returns 7 from inside an IF, with a further body line
after it; `g` returns 9 from inside a REPEAT. -/
def nested_return_ctx : InterpreterContext :=
  { init_context 0 [] with
    functions :=
      [⟨"f", [], ["SET a = 1", "IF 1 THEN RETURN 7 ENDIF", "SET b = 2"]⟩,
       ⟨"g", [], ["REPEAT 3 RETURN 9"]⟩] }

/-- Fixture: block-source lines for a TRY whose first line divides by
zero, with a CATCH block that would set `y`. -/
def try_fault_ctx : InterpreterContext :=
  init_context 0 ["SET x = 5 / 0", "CATCH", "SET y = 1", "ENDTRY"]

/-- Fixture: block-source lines for a TRY whose single line succeeds. -/
def try_ok_ctx : InterpreterContext :=
  init_context 0 ["SET x = 1", "CATCH", "SET y = 1", "ENDTRY"]

/-- Fixture: `f` executes a RETURN, `g` falls through without one. -/
def stale_return_ctx : InterpreterContext :=
  { init_context 0 [] with
    functions := [⟨"f", [], ["RETURN 5"]⟩, ⟨"g", [], ["SET t = 1"]⟩] }

/-- Fixture: a call stack already at MAX_CALL_STACK_DEPTH, plus a trivial
function to invoke. -/
def full_stack_ctx : InterpreterContext :=
  { init_context 0 [] with
    callStack := List.replicate 100 "h"
    functions := [⟨"g", [], []⟩] }

/-- Fixture: a store already holding MAX_VARIABLES entries. -/
def full_store_ctx : InterpreterContext :=
  { init_context 0 [] with
    vars := (List.range 100).map (fun i => ⟨"v" ++ toString i, .float, .num 0⟩) }

/-- Fixture: a registry already holding MAX_FUNCTIONS entries. -/
def full_registry_ctx : InterpreterContext :=
  { init_context 0 [] with
    functions := List.replicate 100 ⟨"q", [], []⟩ }

/-- Fixture for FOR loops: `t = 0` in the store and a body on the block
source that folds the loop variable into `t` as a decimal digit. -/
def for_ctx : InterpreterContext :=
  { init_context 0 ["SET t = 10 * t + i", "ENDFOR"] with
    vars := [⟨"t", .float, .num 0⟩] }

/-- Fixture for the once-only evaluation of FOR bounds: the bound variable
`n = 3` is zeroed by the body's first line. -/
def for_once_ctx : InterpreterContext :=
  { init_context 0 ["SET n = 0", "SET t = 10 * t + i", "ENDFOR"] with
    vars := [⟨"n", .float, .num 3⟩, ⟨"t", .float, .num 0⟩] }

/-- Fixture: `f` calls `g` and only then tries to RETURN 5; `g` is empty. -/
def nested_call_ctx : InterpreterContext :=
  { init_context 0 [] with
    functions := [⟨"f", [], ["CALL g", "RETURN 5"]⟩, ⟨"g", [], []⟩] }

theorem store_step_rfl (a : InterpreterContext) : StoreStep a a :=
  ⟨le_rfl, by simp, id, id⟩

theorem store_step_trans {a b c : InterpreterContext}
    (h1 : StoreStep a b) (h2 : StoreStep b c) : StoreStep a c := by
  obtain ⟨l1, n1, v1, s1⟩ := h1
  obtain ⟨l2, n2, v2, s2⟩ := h2
  refine ⟨le_trans l1 l2, ?_, fun h => v2 (v1 h), fun h => s2 (s1 h)⟩
  have h3 := congrArg (List.take a.vars.length) n2
  rw [List.take_take, min_eq_left l1] at h3
  rw [h3, n1]

theorem store_step_of_eq {a b : InterpreterContext}
    (hv : b.vars = a.vars) (hc : b.callStack = a.callStack) : StoreStep a b := by
  refine ⟨?_, ?_, ?_, ?_⟩ <;> simp [hv, hc]

theorem update_first_map_name (l : List Variable) (n : String) (v : Val)
    (t : VarType) :
    (update_first l n v t).map Variable.name = l.map Variable.name := by
  induction l with
  | nil => rfl
  | cons vr rest ih =>
    simp only [update_first]
    split <;> simp [ih]

theorem store_step_set (c : InterpreterContext) (nm : String) (v : Val)
    (t : VarType) : StoreStep c (set_variable c nm v t) := by
  unfold set_variable
  split
  · have hn := update_first_map_name c.vars nm v t
    have hl : (update_first c.vars nm v t).length = c.vars.length := by
      have := congrArg List.length hn
      simpa using this
    refine ⟨?_, ?_, ?_, ?_⟩ <;> simp [hn, hl]
  · split
    · rename_i hlt
      refine ⟨?_, ?_, ?_, ?_⟩ <;> simp
      · intro h
        simp only [MAX_VARIABLES] at hlt ⊢
        omega
    · exact store_step_of_eq rfl rfl

theorem store_step_emit {a b : InterpreterContext} (h : StoreStep a b)
    (m : String) : StoreStep a (emit b m) :=
  store_step_trans h (store_step_of_eq rfl rfl)

theorem store_step_set2 {a b : InterpreterContext} (h : StoreStep a b)
    (nm : String) (v : Val) (t : VarType) :
    StoreStep a (set_variable b nm v t) :=
  store_step_trans h (store_step_set b nm v t)

theorem store_step_fold_set (l : List (String × String))
    (c : InterpreterContext) :
    StoreStep c (l.foldl (fun c2 pa => set_variable c2 pa.1 (.str pa.2) .float) c) := by
  induction l generalizing c with
  | nil => exact store_step_rfl c
  | cons pa rest ih =>
    exact store_step_trans (store_step_set c pa.1 _ _) (ih _)

theorem store_step_absorb {a : InterpreterContext}
    {r : InterpreterContext × Outcome × Q} (h : StoreStep a r.1) :
    StoreStep a (absorb_line_fault r).1 := by
  rcases r with ⟨c, o, q⟩
  cases o <;> exact h

theorem absorb_line_fault_not_faulted (r : InterpreterContext × Outcome × Q) :
    (absorb_line_fault r).2.1 ≠ Outcome.faulted := by
  rcases r with ⟨c, o, q⟩
  cases o <;> simp [absorb_line_fault]

theorem store_step_of_run_eq {n : ℕ} {c0 c : InterpreterContext} {req : Req}
    {o : Outcome} {q : Q}
    (hM : ∀ (x : InterpreterContext) (r : Req), StoreStep x (run n x r).1)
    (heq : run n c0 req = (c, o, q)) : StoreStep c0 c := by
  have h2 := hM c0 req
  rw [heq] at h2
  exact h2

theorem store_step_push {a b : InterpreterContext} (h : StoreStep a b)
    (nm : String) (hlt : b.callStack.length < MAX_CALL_STACK_DEPTH) :
    StoreStep a { b with callStack := b.callStack ++ [nm] } := by
  obtain ⟨l1, n1, v1, s1⟩ := h
  refine ⟨l1, n1, v1, fun _ => ?_⟩
  simp
  omega

theorem store_step_call_prelude (ctx : InterpreterContext) (f : FunctionDef)
    (args : List String) : StoreStep ctx (call_prelude ctx f args) := by
  have hfold := store_step_fold_set (f.params.zip args) ctx
  simp only [call_prelude]
  split
  · rename_i hpush
    exact store_step_trans (store_step_push hfold _ hpush)
      (store_step_of_eq rfl rfl)
  · exact store_step_trans hfold (store_step_of_eq rfl rfl)

theorem store_step_call_cleanup {ctx c4 : InterpreterContext}
    (h : StoreStep ctx c4) :
    StoreStep ctx (call_cleanup ctx.vars.length c4) := by
  obtain ⟨l1, n1, v1, s1⟩ := h
  refine ⟨?_, ?_, ?_, ?_⟩
  · simp only [call_cleanup, List.length_take]
    omega
  · simp only [call_cleanup, List.map_take, List.take_take, min_self]
    exact n1
  · intro h2
    simp only [call_cleanup, List.length_take]
    omega
  · intro h2
    have h3 := s1 h2
    simp only [call_cleanup]
    split
    · simp only [List.length_dropLast]
      omega
    · exact h3

theorem call_cleanup_map_name {ctx c4 : InterpreterContext}
    (h : StoreStep ctx c4) :
    (call_cleanup ctx.vars.length c4).vars.map Variable.name =
      ctx.vars.map Variable.name := by
  obtain ⟨l1, n1, v1, s1⟩ := h
  simp only [call_cleanup, List.map_take]
  exact n1

theorem store_step_dispatch_set (ctx : InterpreterContext)
    (toks : List String) : StoreStep ctx (dispatch_set ctx toks).1 := by
  simp only [dispatch_set]
  repeat' split
  all_goals
    first
    | exact store_step_rfl _
    | exact store_step_emit (store_step_set _ _ _ _) _

theorem store_step_dispatch_print (ctx : InterpreterContext)
    (toks : List String) : StoreStep ctx (dispatch_print ctx toks).1 :=
  store_step_rfl ctx

theorem store_step_dispatch_get (ctx : InterpreterContext)
    (toks : List String) : StoreStep ctx (dispatch_get ctx toks).1 := by
  simp only [dispatch_get]
  repeat' split
  all_goals exact store_step_rfl _

theorem store_step_dispatch_debug (ctx : InterpreterContext)
    (toks : List String) : StoreStep ctx (dispatch_debug ctx toks).1 := by
  simp only [dispatch_debug]
  repeat' split
  all_goals exact store_step_rfl _

theorem store_step_dispatch_input (ctx : InterpreterContext)
    (toks : List String) : StoreStep ctx (dispatch_input ctx toks).1 := by
  simp only [dispatch_input]
  repeat' split
  all_goals
    first
    | exact store_step_rfl _
    | (refine store_step_emit (store_step_trans ?_ (store_step_set _ _ _ _)) _
       exact store_step_of_eq rfl rfl)

theorem store_step_dispatch_concat (ctx : InterpreterContext)
    (toks : List String) : StoreStep ctx (dispatch_concat ctx toks).1 := by
  simp only [dispatch_concat]
  exact store_step_emit (store_step_set _ _ _ _) _

theorem store_step_dispatch_return (ctx : InterpreterContext)
    (toks : List String) : StoreStep ctx (dispatch_return ctx toks).1 := by
  simp only [dispatch_return]
  repeat' split
  all_goals exact store_step_rfl _

theorem store_step_dispatch_stack (ctx : InterpreterContext) :
    StoreStep ctx (dispatch_stack ctx).1 :=
  store_step_rfl ctx

theorem store_step_dispatch_trace (ctx : InterpreterContext) :
    StoreStep ctx (dispatch_trace ctx).1 :=
  store_step_rfl ctx

theorem store_step_dispatch_audio (ctx : InterpreterContext)
    (toks : List String) : StoreStep ctx (dispatch_audio ctx toks).1 := by
  simp only [dispatch_audio]
  repeat' split
  all_goals exact store_step_rfl _

theorem store_step_dispatch_theme (ctx : InterpreterContext)
    (toks : List String) : StoreStep ctx (dispatch_theme ctx toks).1 := by
  simp only [dispatch_theme]
  repeat' split
  all_goals exact store_step_rfl _

/-- Master invariant: every dispatch step of the interpreter satisfies
`StoreStep`, whatever the fuel, the state and the request. -/
theorem run_store_step (n : ℕ) :
    ∀ (ctx : InterpreterContext) (req : Req), StoreStep ctx (run n ctx req).1 := by
  induction n with
  | zero => intro ctx req; exact store_step_rfl ctx
  | succ n ih =>
    intro ctx req
    cases req with
    | line l =>
      simp only [run]
      exact store_step_absorb (ih ctx (.toks (tokenize l)))
    | block ls =>
      cases ls with
      | nil => exact store_step_rfl ctx
      | cons l ls =>
        have h1 := ih ctx (.line l)
        rcases hres : run n ctx (.line l) with ⟨c, o, q⟩
        rw [hres] at h1
        cases o <;> simp only [run, hres]
        · exact store_step_trans h1 (ih _ _)
        · exact h1
        · exact h1
    | rep k cmd =>
      cases k with
      | zero => exact store_step_rfl ctx
      | succ k =>
        have h1 := ih ctx (.line cmd)
        rcases hres : run n ctx (.line cmd) with ⟨c, o, q⟩
        rw [hres] at h1
        cases o <;> simp only [run, hres]
        · exact store_step_trans h1 (ih _ _)
        · exact h1
        · exact h1
    | func f args =>
      simp only [run]
      repeat' split
      all_goals try rename_i heq
      all_goals
        first
        | exact store_step_rfl _
        | exact store_step_trans (store_step_call_prelude ctx f args)
            (store_step_of_run_eq ih heq)
        | exact store_step_call_cleanup
            (store_step_trans (store_step_call_prelude ctx f args)
              (store_step_of_run_eq ih heq))
    | forloop v endv stepv body =>
      simp only [run]
      repeat' split
      all_goals try rename_i heq
      all_goals
        first
        | exact store_step_rfl _
        | exact store_step_of_run_eq ih heq
        | exact store_step_trans
            (store_step_set2 (store_step_of_run_eq ih heq) _ _ _) (ih _ _)
    | whileloop cond body =>
      simp only [run]
      repeat' split
      all_goals try rename_i heq
      all_goals
        first
        | exact store_step_rfl _
        | exact store_step_of_run_eq ih heq
        | exact store_step_trans (store_step_of_run_eq ih heq) (ih _ _)
    | toks ts =>
      cases ts with
      | nil => exact store_step_rfl ctx
      | cons t0 rest =>
        simp only [run]
        by_cases h1 : (toupper_str t0 = "VARIABLE" ∨ toupper_str t0 = "SET") ∧
            4 ≤ (t0 :: rest).length
        · rw [if_pos h1]; exact store_step_dispatch_set ctx _
        rw [if_neg h1]
        by_cases h2 : toupper_str t0 = "PRINT"
        · rw [if_pos h2]; exact store_step_dispatch_print ctx _
        rw [if_neg h2]
        by_cases h3 : toupper_str t0 = "GET" ∧ 2 ≤ (t0 :: rest).length
        · rw [if_pos h3]; exact store_step_dispatch_get ctx _
        rw [if_neg h3]
        by_cases h4 : toupper_str t0 = "DEBUG" ∧ 2 ≤ (t0 :: rest).length
        · rw [if_pos h4]; exact store_step_dispatch_debug ctx _
        rw [if_neg h4]
        by_cases h5 : toupper_str t0 = "INPUT" ∧ 3 ≤ (t0 :: rest).length
        · rw [if_pos h5]; exact store_step_dispatch_input ctx _
        rw [if_neg h5]
        by_cases h6 : toupper_str t0 = "REPEAT" ∧ 3 ≤ (t0 :: rest).length
        · rw [if_pos h6]
          split
          · exact store_step_rfl ctx
          · exact ih _ _
        rw [if_neg h6]
        by_cases h7 : toupper_str t0 = "IF"
        · rw [if_pos h7]
          cases hif : if_setup ctx (t0 :: rest) with
          | reject => exact store_step_rfl ctx
          | fault m => exact store_step_rfl ctx
          | runCmd cmd => exact ih _ _
          | skip => exact store_step_rfl ctx
        rw [if_neg h7]
        by_cases h8 : toupper_str t0 = "WHILE"
        · rw [if_pos h8]
          split
          · exact store_step_rfl ctx
          · refine store_step_trans ?_ (ih _ _)
            exact store_step_of_eq rfl rfl
        rw [if_neg h8]
        by_cases h9 : toupper_str t0 = "FOR"
        · rw [if_pos h9]
          cases hfor : for_setup ctx (t0 :: rest) with
          | reject m => exact store_step_rfl ctx
          | fault m => exact store_step_rfl ctx
          | go v start_val end_val step_val =>
            refine store_step_trans (store_step_set2 ?_ _ _ _) (ih _ _)
            exact store_step_of_eq rfl rfl
        rw [if_neg h9]
        by_cases h10 : toupper_str t0 = "TRY"
        · rw [if_pos h10]
          split
          · rename_i heq
            refine store_step_trans
              (store_step_trans ?_ (store_step_of_run_eq ih heq)) ?_
            · exact store_step_of_eq rfl rfl
            · exact store_step_of_eq rfl rfl
          · rename_i heq
            refine store_step_trans
              (store_step_trans
                (store_step_trans ?_ (store_step_of_run_eq ih heq)) ?_)
              (ih _ _)
            · exact store_step_of_eq rfl rfl
            · exact store_step_of_eq rfl rfl
          · rename_i heq
            refine store_step_trans ?_ (store_step_of_run_eq ih heq)
            exact store_step_of_eq rfl rfl
        rw [if_neg h10]
        by_cases h11 : toupper_str t0 = "IMPORT" ∧ 2 ≤ (t0 :: rest).length
        · rw [if_pos h11]; exact store_step_rfl ctx
        rw [if_neg h11]
        by_cases h12 : toupper_str t0 = "CONCAT" ∧ 4 ≤ (t0 :: rest).length
        · rw [if_pos h12]; exact store_step_dispatch_concat ctx _
        rw [if_neg h12]
        by_cases h13 : toupper_str t0 = "CALL" ∧ 2 ≤ (t0 :: rest).length
        · rw [if_pos h13]
          cases hf : ctx.functions.find?
              (fun f => f.name = (t0 :: rest).getD 1 "") with
          | none => exact store_step_rfl ctx
          | some f => exact store_step_emit (ih _ _) _
        rw [if_neg h13]
        by_cases h14 : toupper_str t0 = "RETURN" ∧ 2 ≤ (t0 :: rest).length
        · rw [if_pos h14]; exact store_step_dispatch_return ctx _
        rw [if_neg h14]
        by_cases h15 : toupper_str t0 = "STACK"
        · rw [if_pos h15]; exact store_step_dispatch_stack ctx
        rw [if_neg h15]
        by_cases h16 : toupper_str t0 = "TRACE"
        · rw [if_pos h16]; exact store_step_dispatch_trace ctx
        rw [if_neg h16]
        by_cases h17 : toupper_str t0 = "HELP" ∨ toupper_str t0 = "CHEATSHEET" ∨
            toupper_str t0 = "GUIDED"
        · rw [if_pos h17]; exact store_step_rfl ctx
        rw [if_neg h17]
        by_cases h18 : toupper_str t0 = "CUSTOM"
        · rw [if_pos h18]; exact store_step_rfl ctx
        rw [if_neg h18]
        by_cases h19 : toupper_str t0 = "AUDIO" ∧ 2 ≤ (t0 :: rest).length
        · rw [if_pos h19]; exact store_step_dispatch_audio ctx _
        rw [if_neg h19]
        by_cases h20 : toupper_str t0 = "THEME" ∧ 2 ≤ (t0 :: rest).length
        · rw [if_pos h20]; exact store_step_dispatch_theme ctx _
        rw [if_neg h20]
        by_cases h21 : toupper_str t0 = "SAY" ∧ 2 ≤ (t0 :: rest).length
        · rw [if_pos h21]; exact store_step_rfl ctx
        rw [if_neg h21]
        by_cases h22 : toupper_str t0 = "EXIT"
        · rw [if_pos h22]; exact store_step_rfl ctx
        rw [if_neg h22]
        exact store_step_rfl ctx

/-- No fault ever escapes a dispatched line: the per-line boundary of
`execute_line` absorbs every fault raised below it, so lines, blocks,
REPEAT loops, function invocations and FOR loops never hand `faulted` to
their caller.  In particular the TRY fault boundary (claro.c line 685)
never fires: a fault inside a TRY-block line has already been absorbed by
that line's own entry boundary (line 433), which was installed later and
is therefore the nearest `setjmp` on `error_buf`. -/
theorem run_not_faulted (n : ℕ) :
    ∀ (ctx : InterpreterContext) (req : Req), ¬ can_fault req →
      (run n ctx req).2.1 ≠ Outcome.faulted := by
  induction n with
  | zero =>
    intro ctx req hcf
    simp [run]
  | succ n ih =>
    intro ctx req hcf
    cases req with
    | line l =>
      simp only [run]
      exact absorb_line_fault_not_faulted _
    | toks ts => exact absurd trivial hcf
    | whileloop cond body => exact absurd trivial hcf
    | block ls =>
      cases ls with
      | nil => simp [run]
      | cons l ls =>
        have h1 := ih ctx (.line l) (fun h => h)
        rcases hres : run n ctx (.line l) with ⟨c, o, q⟩
        rw [hres] at h1
        cases o
        · simp only [run, hres]
          exact ih c (.block ls) (fun h => h)
        · exact absurd rfl h1
        · simp [run, hres]
    | rep k cmd =>
      cases k with
      | zero => simp [run]
      | succ k =>
        have h1 := ih ctx (.line cmd) (fun h => h)
        rcases hres : run n ctx (.line cmd) with ⟨c, o, q⟩
        rw [hres] at h1
        cases o
        · simp only [run, hres]
          exact ih c (.rep k cmd) (fun h => h)
        · exact absurd rfl h1
        · simp [run, hres]
    | func f args =>
      simp only [run]
      split
      · simp
      · have h1 := ih (call_prelude ctx f args) (.block f.code_lines)
          (fun h => h)
        rcases hres : run n (call_prelude ctx f args) (.block f.code_lines)
          with ⟨c4, o, q⟩
        rw [hres] at h1
        cases o
        · simp [hres]
        · exact absurd rfl h1
        · simp [hres]
    | forloop v endv stepv body =>
      have h1 := ih ctx (.block body) (fun h => h)
      rcases hres : run n ctx (.block body) with ⟨c, o, q⟩
      rw [hres] at h1
      cases o
      · simp only [run, hres]
        repeat' split
        all_goals
          first
          | exact ih _ (.forloop v endv stepv body) (fun h => h)
          | simp
      · exact absurd rfl h1
      · simp only [run, hres]
        repeat' split
        all_goals simp

/-- A function invocation leaves the store's name sequence exactly as it
found it: the watermark truncation discards everything the call appended
(parameters with fresh names and variables first created by the body),
while entries that already existed keep their positions — their values,
however, are whatever the call last wrote into them in place. -/
theorem run_func_map_name (n : ℕ) (ctx : InterpreterContext)
    (f : FunctionDef) (args : List String) :
    (run n ctx (.func f args)).1.vars.map Variable.name =
      ctx.vars.map Variable.name := by
  cases n with
  | zero => simp [run]
  | succ n =>
    simp only [run]
    split
    · rfl
    · have hnf := run_not_faulted n (call_prelude ctx f args)
        (.block f.code_lines) (fun h => h)
      have hss := run_store_step n (call_prelude ctx f args)
        (.block f.code_lines)
      rcases hres : run n (call_prelude ctx f args) (.block f.code_lines)
        with ⟨c4, o, q⟩
      rw [hres] at hnf hss
      cases o
      · simp only [hres]
        exact call_cleanup_map_name
          (store_step_trans (store_step_call_prelude ctx f args) hss)
      · exact absurd rfl hnf
      · simp only [hres]
        exact call_cleanup_map_name
          (store_step_trans (store_step_call_prelude ctx f args) hss)


/-- C6: expression evaluation obeys the precedence order
comparison < additive < multiplicative < primary, with equal-precedence
operators folding left-to-right: `2 + 3 * 4` is 14 (multiplication binds
tighter), `(2+3)*4` is 20 (parenthesized primary), `10/4` is 2.5 (true
double division), `10 - 3 - 2` is 5 and `20 / 2 / 5` is 2 (left-to-right
folds; right-to-left would give 9 and 50), `2 < 3 + 4` is 1 and
`1 + 2 == 3` is 1 (comparison binds loosest). -/
theorem c6_precedence :
    evaluate_expression "2 + 3 * 4" (init_context 0 []) = .ok 14 ∧
    evaluate_expression "(2+3)*4" (init_context 0 []) = .ok 20 ∧
    evaluate_expression "10/4" (init_context 0 []) = .ok (5 / 2) ∧
    evaluate_expression "10 - 3 - 2" (init_context 0 []) = .ok 5 ∧
    evaluate_expression "20 / 2 / 5" (init_context 0 []) = .ok 2 ∧
    evaluate_expression "2 < 3 + 4" (init_context 0 []) = .ok 1 ∧
    evaluate_expression "1 + 2 == 3" (init_context 0 []) = .ok 1 := by
  decide

/-- C7: dividing by a zero divisor and an unmatched opening parenthesis
each abort the whole evaluation with the corresponding EvaluationFault
message instead of returning a value; at the statement level the fault is
absorbed by the per-line boundary (the skip report), and the interpreter
continues with the next statement, which executes normally. -/
theorem c7_evaluation_faults :
    evaluate_expression "5/0" (init_context 0 []) =
      .error "Division by zero is not allowed." ∧
    evaluate_expression "(1+2" (init_context 0 []) =
      .error "Oops! It looks like you forgot a closing parenthesis." ∧
    (execute_block 20 (init_context 0 []) ["SET x = 5 / 0", "SET y = 2"]).2.1 =
      Outcome.completed ∧
    (execute_block 20 (init_context 0 []) ["SET x = 5 / 0", "SET y = 2"]).1.output =
      ["Division by zero is not allowed.",
       "An error occurred; skipping this command",
       "Variable 'y' set to '2'"] ∧
    get_variable
      (execute_block 20 (init_context 0 []) ["SET x = 5 / 0", "SET y = 2"]).1
      "x" = none ∧
    get_variable
      (execute_block 20 (init_context 0 []) ["SET x = 5 / 0", "SET y = 2"]).1
      "y" = some (.num 2) := by
  decide

/-- C8: a bare identifier matching no store entry evaluates permissively
to 0.0 without raising a fault (whatever the rest of the store holds),
whereas `GET` of an unknown name produces the distinct "is not defined"
report and completes normally — no fault is raised and no unwinding
occurs. -/
theorem c8_unknown_identifier :
    (∀ ctx : InterpreterContext, get_variable ctx "foo" = none →
        evaluate_expression "foo" ctx = .ok 0) ∧
    (execute_line 20 (init_context 0 []) "GET foo").1.output =
      ["Variable 'foo' is not defined."] ∧
    (execute_line 20 (init_context 0 []) "GET foo").2.1 = Outcome.completed ∧
    (execute_line 20 (init_context 0 []) "GET foo").1 =
      emit (init_context 0 []) "Variable 'foo' is not defined." := by
  refine ⟨?_, by decide, by decide, by decide⟩
  intro ctx h
  have h1 : evaluate_expression "foo" ctx =
      .ok (match get_variable ctx "foo" with
           | some v => atof_val v
           | none => 0) := rfl
  rw [h1, h]

/-- C8 witness: the permissive-identifier statement at the empty store. -/
theorem c8_unknown_identifier_witness :
    evaluate_expression "foo" (init_context 0 []) = .ok 0 :=
  c8_unknown_identifier.1 (init_context 0 []) rfl

/-- C9: in a FOR loop the start, end and step expressions (step defaulting
to 1.0) are evaluated exactly once at entry and the loop variable is
re-read from the store before each test.  `FOR i = 1 TO 3` runs its body
exactly for i = 1, 2, 3 in order (the digit-fold accumulator ends at 123
and the loop variable at 4); `FOR i = 1 TO 3 STEP -1` runs it zero times
(accumulator untouched, loop variable left at the start value); and
zeroing the bound variable `n` inside the body does not change the
iteration count, because the end bound was evaluated once at entry. -/
theorem c9_for_loop :
    get_variable (execute_line 30 for_ctx "FOR i = 1 TO 3 BEGIN").1 "t" =
      some (.num 123) ∧
    get_variable (execute_line 30 for_ctx "FOR i = 1 TO 3 BEGIN").1 "i" =
      some (.num 4) ∧
    get_variable (execute_line 30 for_ctx "FOR i = 1 TO 3 STEP -1 BEGIN").1 "t" =
      some (.num 0) ∧
    get_variable (execute_line 30 for_ctx "FOR i = 1 TO 3 STEP -1 BEGIN").1 "i" =
      some (.num 1) ∧
    get_variable (execute_line 40 for_once_ctx "FOR i = 1 TO n BEGIN").1 "t" =
      some (.num 123) ∧
    get_variable (execute_line 40 for_once_ctx "FOR i = 1 TO n BEGIN").1 "n" =
      some (.num 0) := by
  decide


/-- `set_variable` never touches the call stack: it only updates `vars`
or appends the capacity report to `output`. -/
theorem set_variable_callStack (c : InterpreterContext) (nm : String)
    (v : Val) (t : VarType) :
    (set_variable c nm v t).callStack = c.callStack := by
  unfold set_variable
  split
  · rfl
  · split <;> rfl

/-- Parameter binding (a fold of `set_variable`) never touches the call
stack. -/
theorem fold_set_callStack (l : List (String × String))
    (c : InterpreterContext) :
    ((l.foldl (fun c2 pa => set_variable c2 pa.1 (.str pa.2) .float)
        c)).callStack = c.callStack := by
  induction l generalizing c with
  | nil => rfl
  | cons pa rest ih =>
    rw [List.foldl_cons, ih, set_variable_callStack]

/-- `run_func_map_name`, restated for the `execute_function` wrapper. -/
theorem execute_function_map_name (fuel : ℕ) (ctx : InterpreterContext)
    (f : FunctionDef) (args : List String) :
    (execute_function fuel ctx f args).1.vars.map Variable.name =
      ctx.vars.map Variable.name := by
  have h := run_func_map_name fuel ctx f args
  unfold execute_function
  rcases hres : run fuel ctx (.func f args) with ⟨c, o, q⟩
  rw [hres] at h
  exact h

/-- C1 (amended): a function invocation restores the store's layout, not
its values.  After the call the store holds exactly the same names at the
same positions as before — the watermark truncation discards every entry
the call appended, so parameters bound over fresh names and variables
first created by the body are gone.  But a parameter that shadows an
existing variable overwrites it in place (`set_variable` updates the
existing slot), and the last value the call wrote is still there after
the return: with a store holding `x = 10` and `f(x) { SET y = 1 }`,
`CALL f 5` leaves `y` absent but `x` holding the argument text "5". -/
theorem c1_watermark_layout_not_values :
    (∀ (fuel : ℕ) (ctx : InterpreterContext) (f : FunctionDef)
       (args : List String),
       (execute_function fuel ctx f args).1.vars.map Variable.name =
         ctx.vars.map Variable.name) ∧
    get_variable (execute_line 20 shadow_ctx "CALL f 5").1 "y" = none ∧
    get_variable (execute_line 20 shadow_ctx "CALL f 5").1 "x" =
      some (.str "5") :=
  ⟨execute_function_map_name, by decide, by decide⟩

/-- C1 counterexample: the global `x = 10` shadowed by the parameter `x`
of `f` is NOT restored to its prior value when `CALL f 5` returns — the
parameter binding overwrote the global's slot in place, and the argument
text "5" persists there after the call. -/
theorem c1_shadow_not_restored :
    get_variable shadow_ctx "x" = some (.num 10) ∧
    get_variable (execute_line 20 shadow_ctx "CALL f 5").1 "x" =
      some (.str "5") ∧
    get_variable (execute_line 20 shadow_ctx "CALL f 5").1 "x" ≠
      some (.num 10) := by
  decide

/-- C2: RETURN outside any active invocation is rejected with the
"RETURN can only be used inside a function" report and has no other
effect; while an invocation is active, RETURN evaluates its expression,
stores the value as the pending result and raises the return transfer,
which skips every remaining body line of the enclosing function — also
when the RETURN sits inside a single-line IF or a REPEAT: `f`'s body
stops right after `IF 1 THEN RETURN 7 ENDIF` (no "Variable 'b'" report
ever appears) and the call reports result 7; `g`'s `REPEAT 3 RETURN 9`
transfers out of the REPEAT on the first iteration with result 9. -/
theorem c2_return_transfer :
    (∀ (ctx : InterpreterContext) (toks : List String),
       ctx.inFunction = false →
       dispatch_return ctx toks =
         (emit ctx "RETURN can only be used inside a function",
          .completed, 0)) ∧
    (∀ (ctx : InterpreterContext) (toks : List String) (v : Q),
       ctx.inFunction = true →
       evaluate_expression (join_tokens toks 1 toks.length) ctx = .ok v →
       dispatch_return ctx toks =
         ({ ctx with functionReturnValue := v }, .returned, 0)) ∧
    (execute_line 30 nested_return_ctx "CALL f").1.output =
      ["Variable 'a' set to '1'", "Function 'f' returned 7"] ∧
    (execute_line 30 nested_return_ctx "CALL g").1.output =
      ["Function 'g' returned 9"] ∧
    (execute_line 30 nested_return_ctx "CALL f").2.1 = Outcome.completed := by
  refine ⟨?_, ?_, by decide, by decide, by decide⟩
  · intro ctx toks h
    unfold dispatch_return
    rw [if_pos h]
  · intro ctx toks v h hv
    unfold dispatch_return
    rw [if_neg (by simp [h]), hv]

/-- C2 witness: the rejection at the initial context (not in a function),
and the transfer of the value 5 from inside an invocation entered via
`call_prelude`. -/
theorem c2_return_transfer_witness :
    dispatch_return (init_context 0 []) ["RETURN", "5"] =
      (emit (init_context 0 []) "RETURN can only be used inside a function",
       .completed, 0) ∧
    dispatch_return (call_prelude (init_context 0 []) ⟨"f", [], []⟩ [])
        ["RETURN", "5"] =
      ({ call_prelude (init_context 0 []) ⟨"f", [], []⟩ [] with
         functionReturnValue := 5 }, .returned, 0) :=
  ⟨c2_return_transfer.1 (init_context 0 []) ["RETURN", "5"] rfl,
   c2_return_transfer.2.1 (call_prelude (init_context 0 []) ⟨"f", [], []⟩ [])
     ["RETURN", "5"] 5 rfl (by decide)⟩

/-- C3 is refuted by the code: the CATCH arm of TRY is unreachable.
Every nested `execute_line` re-arms the per-line fault boundary (claro.c
line 433) after the TRY branch armed its own boundary on the same
`jmp_buf` (line 685), so a fault inside a TRY-block line is absorbed by
that line itself and a block never hands a fault upward — formally, an
`execute_block` outcome is never `faulted`.  Concretely, a TRY whose
block divides by zero still prints the per-line skip report followed by
"TRY block executed successfully; skipping CATCH.", consumes the CATCH
lines from input, and never executes them (`y` is never set); the
non-faulting TRY behaves identically except for the block's own output. -/
theorem c3_catch_unreachable :
    (∀ (fuel : ℕ) (ctx : InterpreterContext) (ls : List String),
       (execute_block fuel ctx ls).2.1 ≠ Outcome.faulted) ∧
    (execute_line 30 try_fault_ctx "TRY").1.output =
      ["Enter TRY block lines (type CATCH on a line by itself):",
       "Division by zero is not allowed.",
       "An error occurred; skipping this command",
       "TRY block executed successfully; skipping CATCH."] ∧
    get_variable (execute_line 30 try_fault_ctx "TRY").1 "y" = none ∧
    (execute_line 30 try_fault_ctx "TRY").1.input = [] ∧
    (execute_line 30 try_ok_ctx "TRY").1.output =
      ["Enter TRY block lines (type CATCH on a line by itself):",
       "Variable 'x' set to '1'",
       "TRY block executed successfully; skipping CATCH."] ∧
    get_variable (execute_line 30 try_ok_ctx "TRY").1 "y" = none ∧
    (execute_line 30 try_ok_ctx "TRY").1.input = [] := by
  refine ⟨?_, by decide, by decide, by decide, by decide, by decide,
    by decide⟩
  intro fuel ctx ls
  exact run_not_faulted fuel ctx (.block ls) (fun h => h)

/-- C4 is refuted by the code: the result of a fall-through invocation is
whatever `function_return_value` already held, not 0.0.  `init_context`
(claro.c lines 956-967) never initialises the field and `execute_function`
(lines 410-421) never resets it, so a body that completes all its lines
without RETURN yields the stale contents: from a fresh context with
indeterminate initial value `r0`, a fall-through call returns `r0`; and
after `CALL f` has returned 5, the fall-through `CALL g` also reports
"returned 5". -/
theorem c4_stale_fallthrough :
    (∀ r0 : Q,
       (execute_function 20 (init_context r0 [])
          ⟨"g", [], ["SET t = 1"]⟩ []).2 = r0) ∧
    (execute_block 30 stale_return_ctx ["CALL f", "CALL g"]).1.output =
      ["Function 'f' returned 5", "Variable 't' set to '1'",
       "Function 'g' returned 5"] :=
  ⟨fun _ => rfl, by decide⟩

/-- C5 (amended): the variable store and the function registry do report
their capacity fault inline with the attempted mutation not occurring,
and both the store bound and the call-stack bound are invariant under
every dispatch step; but the call stack's capacity case is silent — a
push at the bound is skipped without any report (the invocation is
exactly parameter binding plus the active flag), and the cleanup pop
still runs unconditionally. -/
theorem c5_capacity_faults :
    (∀ (ctx : InterpreterContext) (nm : String) (v : Val) (t : VarType),
       ctx.vars.any (fun vr => vr.name = nm) = false →
       MAX_VARIABLES ≤ ctx.vars.length →
       set_variable ctx nm v t =
         { ctx with
           output := ctx.output ++ ["Maximum variable limit reached"] }) ∧
    (∀ (ctx : InterpreterContext) (toks : List String),
       2 ≤ toks.length →
       MAX_FUNCTIONS ≤ ctx.functions.length →
       define_function ctx toks = emit ctx "Maximum function limit reached") ∧
    (∀ (ctx : InterpreterContext) (f : FunctionDef) (args : List String),
       MAX_CALL_STACK_DEPTH ≤ ctx.callStack.length →
       call_prelude ctx f args =
         { (f.params.zip args).foldl
             (fun c2 pa => set_variable c2 pa.1 (.str pa.2) .float) ctx with
           inFunction := true }) ∧
    (∀ (fuel : ℕ) (ctx : InterpreterContext) (req : Req),
       ctx.vars.length ≤ MAX_VARIABLES →
       (run fuel ctx req).1.vars.length ≤ MAX_VARIABLES) ∧
    (∀ (fuel : ℕ) (ctx : InterpreterContext) (req : Req),
       ctx.callStack.length ≤ MAX_CALL_STACK_DEPTH →
       (run fuel ctx req).1.callStack.length ≤ MAX_CALL_STACK_DEPTH) := by
  refine ⟨?_, ?_, ?_, ?_, ?_⟩
  · intro ctx nm v t hany hlen
    unfold set_variable
    rw [if_neg (by simp [hany]), if_neg (by omega)]
  · intro ctx toks h2 hfull
    unfold define_function
    rw [if_neg (by omega), if_pos (by omega)]
  · intro ctx f args hfull
    simp only [call_prelude]
    rw [if_neg (by rw [fold_set_callStack]; omega)]
  · intro fuel ctx req h
    exact (run_store_step fuel ctx req).2.2.1 h
  · intro fuel ctx req h
    exact (run_store_step fuel ctx req).2.2.2 h

/-- C5 witness: the three capacity branches and the two bounds exercised
at full registries — the store report at a full store, the function
report at a full registry, the silent skipped push at a full call stack,
and the preserved bounds across a dispatched line. -/
theorem c5_capacity_faults_witness :
    set_variable full_store_ctx "zzz" (.num 1) .float =
      { full_store_ctx with
        output := full_store_ctx.output ++
          ["Maximum variable limit reached"] } ∧
    define_function full_registry_ctx ["FUNCTION", "q2"] =
      emit full_registry_ctx "Maximum function limit reached" ∧
    call_prelude full_stack_ctx ⟨"g", [], []⟩ [] =
      { full_stack_ctx with inFunction := true } ∧
    (run 5 full_store_ctx (.line "SET a = 1")).1.vars.length ≤
      MAX_VARIABLES ∧
    (run 5 full_stack_ctx (.line "CALL g")).1.callStack.length ≤
      MAX_CALL_STACK_DEPTH :=
  ⟨c5_capacity_faults.1 full_store_ctx "zzz" (.num 1) .float (by decide)
     (by decide),
   c5_capacity_faults.2.1 full_registry_ctx ["FUNCTION", "q2"] (by decide)
     (by decide),
   (c5_capacity_faults.2.2.1 full_stack_ctx ⟨"g", [], []⟩ []
     (by decide)).trans (by decide),
   c5_capacity_faults.2.2.2.1 5 full_store_ctx (.line "SET a = 1")
     (by decide),
   c5_capacity_faults.2.2.2.2 5 full_stack_ctx (.line "CALL g")
     (by decide)⟩

/-- C5 counterexample: invoking `g` with the call stack already at its
bound of 100 produces no capacity report of any kind — the output is
exactly the normal return report — yet the mutation discipline is still
violated downward: the skipped push paired with the unconditional pop
leaves the recorded depth at 99. -/
theorem c5_stack_silent :
    full_stack_ctx.callStack.length = 100 ∧
    (execute_line 20 full_stack_ctx "CALL g").1.output =
      ["Function 'g' returned 0"] ∧
    (execute_line 20 full_stack_ctx "CALL g").1.callStack.length = 99 := by
  decide

/-- C10: `execute_function` clears the active-function flag on every
completing invocation regardless of nesting (the final state of a
well-arity `func` request always carries `inFunction = false`), so after
the nested `CALL g` inside `f`'s body returns, the outer body's
`RETURN 5` is rejected as being outside a function instead of
transferring to `f`'s return boundary — `f` then falls through and
reports result 0. -/
theorem c10_flag_cleared :
    (∀ (n : ℕ) (ctx : InterpreterContext) (f : FunctionDef)
       (args : List String),
       args.length = f.params.length →
       (run (n + 1) ctx (.func f args)).1.inFunction = false) ∧
    (execute_line 40 nested_call_ctx "CALL f").1.output =
      ["Function 'g' returned 0",
       "RETURN can only be used inside a function",
       "Function 'f' returned 0"] ∧
    (execute_line 40 nested_call_ctx "CALL f").1.inFunction = false := by
  refine ⟨?_, by decide, by decide⟩
  intro n ctx f args harity
  simp only [run]
  rw [if_neg (by omega)]
  have hnf := run_not_faulted n (call_prelude ctx f args)
    (.block f.code_lines) (fun h => h)
  rcases hres : run n (call_prelude ctx f args) (.block f.code_lines)
    with ⟨c4, o, q⟩
  rw [hres] at hnf
  cases o
  · simp only [hres]
    rfl
  · exact absurd rfl hnf
  · simp only [hres]
    rfl

/-- C10 witness: the flag statement at a concrete trivial invocation. -/
theorem c10_flag_cleared_witness :
    (run (4 + 1) (init_context 0 [])
       (.func ⟨"g", [], []⟩ [])).1.inFunction = false :=
  c10_flag_cleared.1 4 (init_context 0 []) ⟨"g", [], []⟩ [] rfl

/-- `gcd_fuel` computes `Nat.gcd` whenever the fuel exceeds its first
argument. -/
theorem gcd_fuel_eq_gcd (f m n : ℕ) (h : m < f) :
    gcd_fuel f m n = Nat.gcd m n := by
  induction f generalizing m n with
  | zero => omega
  | succ f ih =>
    cases m with
    | zero => simp [gcd_fuel]
    | succ m =>
      have hstep : gcd_fuel (f + 1) (m + 1) n = gcd_fuel f (n % (m + 1)) (m + 1) := rfl
      have hlt : n % (m + 1) < f := by
        have := Nat.mod_lt n (show 0 < m + 1 by omega)
        omega
      rw [hstep, ih (n % (m + 1)) (m + 1) hlt]
      exact (Nat.gcd_rec (m + 1) n).symm

/-- `gcd_k` is `Nat.gcd`. -/
theorem gcd_k_eq (m n : ℕ) : gcd_k m n = Nat.gcd m n :=
  gcd_fuel_eq_gcd (m + 1) m n (Nat.lt_succ_self m)

/-- `qnorm` over a positive denominator computes the rational `n / d`. -/
theorem qnorm_toRat_pos (n : ℤ) (m : ℕ) (hm : m ≠ 0) :
    (qnorm n (m : ℤ)).toRat = (n : ℚ) / (m : ℚ) := by
  have hg : Nat.gcd n.natAbs m ≠ 0 := by
    intro h
    exact hm (Nat.eq_zero_of_gcd_eq_zero_right h)
  simp only [qnorm, if_neg (show ¬((m : ℤ) < 0) by omega), gcd_k_eq,
    Int.toNat_natCast]
  rw [if_neg hg]
  have h1 : ((Nat.gcd n.natAbs m : ℤ)) ∣ n :=
    Int.dvd_natAbs.mp (Int.natCast_dvd_natCast.mpr (Nat.gcd_dvd_left _ _))
  have h2 : Nat.gcd n.natAbs m ∣ m := Nat.gcd_dvd_right _ _
  have hgQ : ((Nat.gcd n.natAbs m : ℚ)) ≠ 0 := by exact_mod_cast hg
  have hmQ : ((m : ℚ)) ≠ 0 := by exact_mod_cast hm
  unfold Q.toRat
  simp only
  rw [Int.cast_div_charZero h1, Nat.cast_div h2 hgQ]
  rw [Int.cast_natCast]
  rw [div_div_div_cancel_right₀]
  exact hgQ

/-- `qnorm` computes the rational `n / d` for every nonzero denominator. -/
theorem qnorm_toRat (n d : ℤ) (hd : d ≠ 0) :
    (qnorm n d).toRat = (n : ℚ) / (d : ℚ) := by
  by_cases hneg : d < 0
  · have heq : qnorm n d = qnorm (-n) ((-d).toNat : ℤ) := by
      simp only [qnorm, if_pos hneg,
        if_neg (show ¬(((-d).toNat : ℤ) < 0) by omega), Int.toNat_natCast]
    rw [heq, qnorm_toRat_pos (-n) (-d).toNat (by omega)]
    have h3 : (((-d).toNat : ℚ)) = ((-d : ℤ) : ℚ) := by
      have := Int.toNat_of_nonneg (show (0:ℤ) ≤ -d by omega)
      exact_mod_cast congrArg (fun z : ℤ => (z : ℚ)) this
    rw [h3]
    push_cast
    rw [neg_div_neg_eq]
  · have h0 : 0 ≤ d := by omega
    have heq2 : d = (d.toNat : ℤ) := (Int.toNat_of_nonneg h0).symm
    rw [heq2, qnorm_toRat_pos n d.toNat (by omega)]
    norm_cast
/-- `qnorm` keeps the denominator positive whenever the input denominator
is nonzero. -/
theorem qnorm_den_pos (n d : ℤ) (hd : d ≠ 0) : 0 < (qnorm n d).den := by
  by_cases hneg : d < 0
  · simp only [qnorm, if_pos hneg, gcd_k_eq]
    have hd2 : (-d).toNat ≠ 0 := by omega
    have hg : Nat.gcd (-n).natAbs (-d).toNat ≠ 0 := by
      intro h
      exact hd2 (Nat.eq_zero_of_gcd_eq_zero_right h)
    rw [if_neg hg]
    exact Nat.div_pos (Nat.le_of_dvd (by omega) (Nat.gcd_dvd_right _ _))
      (Nat.pos_of_ne_zero hg)
  · simp only [qnorm, if_neg hneg, gcd_k_eq]
    have hd2 : d.toNat ≠ 0 := by omega
    have hg : Nat.gcd n.natAbs d.toNat ≠ 0 := by
      intro h
      exact hd2 (Nat.eq_zero_of_gcd_eq_zero_right h)
    rw [if_neg hg]
    exact Nat.div_pos (Nat.le_of_dvd (by omega) (Nat.gcd_dvd_right _ _))
      (Nat.pos_of_ne_zero hg)

/-- Negation of `Q` values is rational negation. -/
theorem toRat_neg (a : Q) : (-a).toRat = -a.toRat := by
  show Q.toRat ⟨-a.num, a.den⟩ = -a.toRat
  unfold Q.toRat
  push_cast
  rw [neg_div]

/-- Addition of `Q` values is rational addition. -/
theorem toRat_add (a b : Q) (ha : 0 < a.den) (hb : 0 < b.den) :
    (a + b).toRat = a.toRat + b.toRat := by
  have haZ : ((a.den : ℤ)) ≠ 0 := by exact_mod_cast ha.ne'
  have hbZ : ((b.den : ℤ)) ≠ 0 := by exact_mod_cast hb.ne'
  have haQ : ((a.den : ℚ)) ≠ 0 := by exact_mod_cast ha.ne'
  have hbQ : ((b.den : ℚ)) ≠ 0 := by exact_mod_cast hb.ne'
  show (qnorm (a.num * b.den + b.num * a.den) (a.den * b.den)).toRat = _
  rw [qnorm_toRat _ _ (mul_ne_zero haZ hbZ)]
  unfold Q.toRat
  push_cast
  field_simp

/-- Subtraction of `Q` values is rational subtraction. -/
theorem toRat_sub (a b : Q) (ha : 0 < a.den) (hb : 0 < b.den) :
    (a - b).toRat = a.toRat - b.toRat := by
  have haZ : ((a.den : ℤ)) ≠ 0 := by exact_mod_cast ha.ne'
  have hbZ : ((b.den : ℤ)) ≠ 0 := by exact_mod_cast hb.ne'
  have haQ : ((a.den : ℚ)) ≠ 0 := by exact_mod_cast ha.ne'
  have hbQ : ((b.den : ℚ)) ≠ 0 := by exact_mod_cast hb.ne'
  show (qnorm (a.num * b.den - b.num * a.den) (a.den * b.den)).toRat = _
  rw [qnorm_toRat _ _ (mul_ne_zero haZ hbZ)]
  unfold Q.toRat
  push_cast
  field_simp
  ring

/-- Multiplication of `Q` values is rational multiplication. -/
theorem toRat_mul (a b : Q) (ha : 0 < a.den) (hb : 0 < b.den) :
    (a * b).toRat = a.toRat * b.toRat := by
  have haZ : ((a.den : ℤ)) ≠ 0 := by exact_mod_cast ha.ne'
  have hbZ : ((b.den : ℤ)) ≠ 0 := by exact_mod_cast hb.ne'
  have haQ : ((a.den : ℚ)) ≠ 0 := by exact_mod_cast ha.ne'
  have hbQ : ((b.den : ℚ)) ≠ 0 := by exact_mod_cast hb.ne'
  show (qnorm (a.num * b.num) (a.den * b.den)).toRat = _
  rw [qnorm_toRat _ _ (mul_ne_zero haZ hbZ)]
  unfold Q.toRat
  push_cast
  field_simp

/-- Division of `Q` values by a nonzero value is rational division. -/
theorem toRat_div (a b : Q) (ha : 0 < a.den) (hb : 0 < b.den)
    (hbn : b.num ≠ 0) :
    (a / b).toRat = a.toRat / b.toRat := by
  have haZ : ((a.den : ℤ)) ≠ 0 := by exact_mod_cast ha.ne'
  have hbZ : ((b.den : ℤ)) ≠ 0 := by exact_mod_cast hb.ne'
  have haQ : ((a.den : ℚ)) ≠ 0 := by exact_mod_cast ha.ne'
  have hbQ : ((b.den : ℚ)) ≠ 0 := by exact_mod_cast hb.ne'
  have hbnQ : ((b.num : ℚ)) ≠ 0 := by exact_mod_cast hbn
  show (qnorm (a.num * b.den) (a.den * b.num)).toRat = _
  rw [qnorm_toRat _ _ (mul_ne_zero haZ hbn)]
  unfold Q.toRat
  push_cast
  field_simp

/-- The `Q` order is the rational order. -/
theorem toRat_le (a b : Q) (ha : 0 < a.den) (hb : 0 < b.den) :
    a ≤ b ↔ a.toRat ≤ b.toRat := by
  have ha2 : (0:ℚ) < (a.den : ℚ) := by exact_mod_cast ha
  have hb2 : (0:ℚ) < (b.den : ℚ) := by exact_mod_cast hb
  show a.num * (b.den : ℤ) ≤ b.num * (a.den : ℤ) ↔ _
  unfold Q.toRat
  rw [div_le_div_iff₀ ha2 hb2]
  exact_mod_cast Iff.rfl

/-- The strict `Q` order is the strict rational order. -/
theorem toRat_lt (a b : Q) (ha : 0 < a.den) (hb : 0 < b.den) :
    a < b ↔ a.toRat < b.toRat := by
  have ha2 : (0:ℚ) < (a.den : ℚ) := by exact_mod_cast ha
  have hb2 : (0:ℚ) < (b.den : ℚ) := by exact_mod_cast hb
  show a.num * (b.den : ℤ) < b.num * (a.den : ℤ) ↔ _
  unfold Q.toRat
  rw [div_lt_div_iff₀ ha2 hb2]
  exact_mod_cast Iff.rfl

/-- Numeric literals embed as themselves. -/
theorem toRat_natCast (n : ℕ) : ((n : Q)).toRat = (n : ℚ) := by
  show Q.toRat ⟨(n : ℤ), 1⟩ = (n : ℚ)
  unfold Q.toRat
  norm_num

/-- `qpow10` is the rational power of ten. -/
theorem toRat_qpow10 (k : ℕ) : (qpow10 k).toRat = (10 : ℚ) ^ k := by
  unfold qpow10 Q.toRat
  push_cast
  norm_num

end Claro
